import Mathlib

/-!
The asynchronous operation reconciliation engine of terraform-provider-ceph-rest.

A shallow embedding of the vendored client package `ceph` (files `block.go`, `task.go`,
`client.go`, `util.go`) together with theorems about it.

Modelling conventions.

* The network is a `World`: the answers of the server are scripted, one stream for the
  mutating endpoint (`POST/PUT/DELETE block/image`) and one for `GET task`; the world
  records every mutating request sent and counts the task-directory fetches.  A request is one
  call of the HTTP library (`Post`, `Put`, `Delete`, `Get`); the retries the library
  performs inside that call are not unfolded.
* A Go `*string` is `Option StringPtr`: `none` is the nil pointer, and a pointer carries
  its address together with the string it points to (nothing in the package writes
  through such a pointer).  Go `==` on pointers compares addresses.
* Go `uint` is a natural number below `uintSize = 2 ^ 64`; `counter++` wraps.
* The unbounded `for` loop of `WaitForTaskIsDone` takes a `fuel` argument and the
  self-calls of the three orchestrators take a `depth` argument; `none` means that the
  bound was reached before the Go function returned.
* `time.Sleep` and the logger have no effect on any returned value and are left out.
-/

namespace Ceph

/-! ## Errors -/

/-- Error values that the package returns: the sentinels of `block.go` and `client.go`,
the two `fmt.Errorf` shapes of `block.go` and `task.go`, and errors handed up by the
HTTP library. -/
inductive GoError where
  | ErrImageSpecIsEmpty
  | ErrPoolNameIsEmpty
  | ErrImageNameIsEmpty
  | ErrCreateImageAlreadyExists
  | ErrEditImageAlreadyExists
  | ErrMaxIterationsExceeded
  | couldNotCreateImage (name pool respError : String)
  | rawResponse (text : String)
  | library (text : String)
  deriving DecidableEq, Repr

/-- Text of the error, as `errors.New` and `fmt.Errorf` build it in the source. -/
def GoError.Error : GoError → String
  | .ErrImageSpecIsEmpty => "param imageSpec can not be empty"
  | .ErrPoolNameIsEmpty => "param poolName can not be empty"
  | .ErrImageNameIsEmpty => "param imageName can not be empty"
  | .ErrCreateImageAlreadyExists => "RBD image already exists (error creating image)"
  | .ErrEditImageAlreadyExists => "RBD image already exists (error renaming image)"
  | .ErrMaxIterationsExceeded => "max recursive iterations exceeded"
  | .couldNotCreateImage name pool respError =>
      "could not create image: " ++ name ++ " on pool " ++ pool ++ ": " ++ respError ++ " "
  | .rawResponse text => text
  | .library text => text

/-- The two sentinels that report an image that already exists. -/
def GoError.IsAlreadyExists : GoError → Bool
  | .ErrCreateImageAlreadyExists => true
  | .ErrEditImageAlreadyExists => true
  | _ => false

/-- Constant `RBDImageAlreadyExists` of `block.go`. -/
def RBDImageAlreadyExists : String := "17"

/-! ## HTTP status codes used by the package -/

def StatusOK : Nat := 200
def StatusCreated : Nat := 201
def StatusAccepted : Nat := 202
def StatusNoContent : Nat := 204
def StatusBadRequest : Nat := 400
def StatusNotFound : Nat := 404

/-- Number of values of a Go `uint` (64-bit targets). -/
def uintSize : Nat := 2 ^ 64

/-! ## Data model (`task.go`, `block.go`, `client.go`) -/

/-- A non-nil Go `*string`: the address of the variable and the string stored there. -/
structure StringPtr where
  addr : Nat
  val : String
  deriving DecidableEq, Repr

/-- Go `p == q` on two `*string`: both nil, or both non-nil with the same address. -/
def ptrEq : Option StringPtr → Option StringPtr → Bool
  | none, none => true
  | some p, some q => p.addr == q.addr
  | _, _ => false

/-- Struct `MetaData` of `task.go`. -/
structure MetaData where
  PoolName : String := ""
  Namespace : Option StringPtr := none
  ImageName : String := ""
  ImageSpec : String := ""
  deriving DecidableEq, Repr

/-- Anonymous struct of the field `Task` of `Exception`. -/
structure ExceptionTask where
  Name : String := ""
  MetaData : MetaData := {}
  deriving DecidableEq, Repr

/-- Struct `Exception` of `task.go`, returned on http 400 responses. -/
structure Exception where
  Detail : String := ""
  Code : String := ""
  Component : String := ""
  Status : Int := 0
  Task : ExceptionTask := {}
  deriving DecidableEq, Repr

/-- Struct `Task` of `task.go`.  The fields of Go type `time.Time`, `float64` and
`interface{}` are carried as the text received; no function of the package reads them. -/
structure Task where
  Name : String := ""
  MetaData : MetaData := {}
  BeginTime : String := ""
  EndTime : String := ""
  Duration : String := ""
  Progress : Int := 0
  Success : Bool := false
  RetValue : String := ""
  Exception : Exception := {}
  deriving DecidableEq, Repr

/-- Struct `Tasks` of `task.go`, the answer of `/api/task`. -/
structure Tasks where
  ExecutingTasks : List Task := []
  FinishedTasks : List Task := []
  deriving DecidableEq, Repr

/-- Struct `RBDCreate` of `block.go`; the `interface{}` fields are carried as text. -/
structure RBDCreate where
  Features : List String := []
  PoolName : String := ""
  Namespace : Option StringPtr := none
  Name : String := ""
  Size : Int := 0
  ObjSize : Int := 0
  StripeUnit : Option String := none
  StripeCount : Option String := none
  DataPool : Option String := none
  deriving DecidableEq, Repr

/-- Struct `RBDUpdate` of `block.go`. -/
structure RBDUpdate where
  Features : List String := []
  Name : String := ""
  Size : Int := 0
  deriving DecidableEq, Repr

/-- Struct `Client` of `client.go`; the session and the logger are the `World`. -/
structure Client where
  MaxIterations : Nat
  deriving DecidableEq, Repr

/-! ## The HTTP library seen from the package -/

/-- What one call of the HTTP library hands back: the error value, and of the response
the status code (0 when there is no raw response), the outcome of
`JSONUnmarshal(resp.Body(), &exception)` (`none` when it fails), the value stored
through `SetResult(&t)`, and the texts of `resp.RawResponse` and `resp.Error()`. -/
structure Response where
  err : Option GoError := none
  StatusCode : Nat := 0
  exception : Option Exception := none
  tasks : Tasks := {}
  raw : String := ""
  errorText : String := ""
  deriving DecidableEq, Repr

/-- Method `IsSuccess` of the library response: status code in the range 200 to 299. -/
def Response.IsSuccess (r : Response) : Bool :=
  decide (199 < r.StatusCode) && decide (r.StatusCode < 300)

/-- A mutating request, by method and payload. -/
inductive Request where
  | post (body : RBDCreate)
  | put (imageSpec : String) (body : RBDUpdate)
  | delete (imageSpec : String)
  deriving DecidableEq, Repr

/-- The server and the traffic so far.  `mutating k` answers the mutating request number
`k` (from 0), `taskDir k` answers the fetch number `k` of the task directory. -/
structure World where
  mutating : Nat → Response
  taskDir : Nat → Response
  sent : List Request := []
  fetched : Nat := 0

/-- Send one mutating request: the answer and the world afterwards. -/
def World.send (w : World) (req : Request) : Response × World :=
  (w.mutating w.sent.length, { w with sent := w.sent ++ [req] })

/-- Fetch the task directory once: the answer and the world afterwards. -/
def World.fetch (w : World) : Response × World :=
  (w.taskDir w.fetched, { w with fetched := w.fetched + 1 })

/-! ## `util.go` -/

/-- A value passed to the variadic `PathJoin(v ...interface{})`. -/
inductive PathArg where
  | str (s : String)
  | ptr (p : Option StringPtr)
  | other
  deriving DecidableEq, Repr

/-- Split a character list at every slash. -/
def splitSlash : List Char → List (List Char)
  | [] => [[]]
  | c :: cs =>
    match splitSlash cs with
    | [] => [[c]]
    | seg :: rest => if c = '/' then [] :: seg :: rest else (c :: seg) :: rest

/-- One step of `path.Clean` on the stack of kept components (innermost last): a
component `..` removes the last kept component unless there is none or it is itself
`..`, in which case it is kept on an unrooted path and dropped on a rooted one. -/
def cleanStep (rooted : Bool) (out : List String) (comp : String) : List String :=
  if comp = "" ∨ comp = "." then out
  else if comp = ".." then
    match out.getLast? with
    | some last => if last = ".." then out ++ [".."] else out.dropLast
    | none => if rooted then out else out ++ [".."]
  else out ++ [comp]

/-- Go standard library `path.Clean`, component by component. -/
def pathClean (path : String) : String :=
  if path = "" then "." else
  let rooted := path.data.head? = some '/'
  let comps := (splitSlash path.data).map String.mk
  let out := comps.foldl (cleanStep rooted) []
  if rooted then "/" ++ "/".intercalate out
  else if out = [] then "." else "/".intercalate out

/-- Go standard library `path.Join`: empty elements are ignored, the rest is joined
with slashes and cleaned; the result is empty when every element is empty. -/
def pathJoin (elem : List String) : String :=
  match elem.filter (fun e => e ≠ "") with
  | [] => ""
  | kept => pathClean ("/".intercalate kept)

/-- The loop of `PathJoin`: collect the non-empty strings and pointed-to strings. -/
def PathJoin.segments : List PathArg → List String
  | [] => []
  | .str s :: rest => if s ≠ "" then s :: PathJoin.segments rest else PathJoin.segments rest
  | .ptr (some p) :: rest =>
      if p.val ≠ "" then p.val :: PathJoin.segments rest else PathJoin.segments rest
  | .ptr none :: rest => PathJoin.segments rest
  | .other :: rest => PathJoin.segments rest

/-- Function `PathJoin` of `util.go`. -/
def PathJoin (v : List PathArg) : String :=
  pathJoin (PathJoin.segments v)

/-! ## `task.go` -/

/-- Function `matchTask` of `task.go`; the namespaces are compared as pointers. -/
def matchTask (finishedTask workTask : Task) : Bool :=
  if finishedTask.Name == workTask.Name &&
      finishedTask.MetaData.ImageSpec == workTask.MetaData.ImageSpec &&
      ptrEq finishedTask.MetaData.Namespace workTask.MetaData.Namespace &&
      finishedTask.MetaData.ImageName == workTask.MetaData.ImageName &&
      finishedTask.MetaData.PoolName == workTask.MetaData.PoolName then
    true
  else
    false

/-- The `range` loop of `taskIsStillExecuting` over the executing tasks. -/
def taskIsStillExecuting.loop (task : Task) : List Task → Bool
  | [] => false
  | et :: rest => if matchTask et task then true else taskIsStillExecuting.loop task rest

/-- Function `taskIsStillExecuting` of `task.go`. -/
def taskIsStillExecuting (task : Task) (tasks : Tasks) : Bool :=
  taskIsStillExecuting.loop task tasks.ExecutingTasks

/-- The `range` loop of `taskIsFinished` over the finished tasks. -/
def taskIsFinished.loop (task : Task) : List Task → Bool × Task
  | [] => (false, {})
  | ft :: rest => if matchTask ft task then (true, ft) else taskIsFinished.loop task rest

/-- Function `taskIsFinished` of `task.go`. -/
def taskIsFinished (task : Task) (tasks : Tasks) : Bool × Task :=
  taskIsFinished.loop task tasks.FinishedTasks

/-- Method `GetTask` of `task.go`: status, task directory and error, and the world after
the fetch. -/
def GetTask (w : World) : (Nat × Tasks × Option GoError) × World :=
  let (resp, w1) := w.fetch
  if !resp.IsSuccess then
    ((resp.StatusCode, {}, some (.rawResponse resp.raw)), w1)
  else
    ((resp.StatusCode, resp.tasks, resp.err), w1)

/-- Local `maxAttempts` of `WaitForTaskIsDone`. -/
def maxAttempts : Nat := 600

/-- First loop of `WaitForTaskIsDone` (`for { ... }`): fetch until no executing task
matches.  The result is the error to return at once, or `none` after the `break`. -/
def WaitForTaskIsDone.phase1 (workTask : Task) : Nat → World → Option (Option GoError × World)
  | 0, _ => none
  | fuel + 1, w =>
    match GetTask w with
    | ((_, _, some err), w1) => some (some err, w1)
    | ((_, tasks, none), w1) =>
      if !taskIsStillExecuting workTask tasks then some (none, w1)
      else WaitForTaskIsDone.phase1 workTask fuel w1

/-- Second loop of `WaitForTaskIsDone` (`for attempt := 0; attempt < maxAttempts;
attempt++`), with the number of attempts left and the current value of the variable
`finishedTask`; after the loop the function returns `finishedTask, nil`. -/
def WaitForTaskIsDone.phase2 (workTask : Task) :
    Nat → Task → World → (Task × Option GoError) × World
  | 0, finishedTask, w => ((finishedTask, none), w)
  | left + 1, finishedTask, w =>
    match GetTask w with
    | ((_, _, some err), w1) => ((finishedTask, some err), w1)
    | ((_, tasks, none), w1) =>
      match taskIsFinished workTask tasks with
      | (true, ft) => ((ft, none), w1)
      | (false, ft) => WaitForTaskIsDone.phase2 workTask left ft w1

/-- Method `WaitForTaskIsDone` of `task.go`. -/
def WaitForTaskIsDone (fuel : Nat) (workTask : Task) (w : World) :
    Option ((Task × Option GoError) × World) :=
  match WaitForTaskIsDone.phase1 workTask fuel w with
  | none => none
  | some (some err, w1) => some ((({} : Task), some err), w1)
  | some (none, w1) => some (WaitForTaskIsDone.phase2 workTask maxAttempts {} w1)

/-! ## `block.go` -/

/-- Local `lookForTask` of `CreateBlockImage`; `ImageSpec` is always empty for
`rbd/create`. -/
def CreateBlockImage.lookForTask (rbdCreate : RBDCreate) : Task :=
  { Name := "rbd/create"
    MetaData :=
      { PoolName := rbdCreate.PoolName
        Namespace := rbdCreate.Namespace
        ImageName := rbdCreate.Name
        ImageSpec := "" } }

/-- Local `lookForTask` of `UpdateBlockImage`: only `ImageSpec` is set. -/
def UpdateBlockImage.lookForTask (imageSpec : String) : Task :=
  { Name := "rbd/edit", MetaData := { ImageSpec := imageSpec } }

/-- Local `lookForTask` of `DeleteBlockImage`: only `ImageSpec` is set. -/
def DeleteBlockImage.lookForTask (imageSpec : String) : Task :=
  { Name := "rbd/delete", MetaData := { ImageSpec := imageSpec } }

/-- Method `CreateBlockImage` of `block.go`. -/
def CreateBlockImage (c : Client) (fuel : Nat) :
    Nat → RBDCreate → Nat → World → Option ((Nat × Option GoError) × World)
  | 0, _, _, _ => none
  | depth + 1, rbdCreate, counter, w =>
    if counter > c.MaxIterations then
      some ((0, some .ErrMaxIterationsExceeded), w)
    else
      let counter := (counter + 1) % uintSize
      let (resp, w1) := w.send (.post rbdCreate)
      match resp.err with
      | some err => some ((0, some err), w1)
      | none =>
        if !resp.IsSuccess then
          if resp.StatusCode = StatusBadRequest ∧
              (resp.exception.map (fun e => e.Code)) = some RBDImageAlreadyExists then
            some ((resp.StatusCode, some .ErrEditImageAlreadyExists), w1)
          else
            some ((resp.StatusCode,
              some (.couldNotCreateImage rbdCreate.Name rbdCreate.PoolName resp.errorText)), w1)
        else
          let status := resp.StatusCode
          if status = StatusCreated ∨ status = StatusAccepted then
            match WaitForTaskIsDone fuel (CreateBlockImage.lookForTask rbdCreate) w1 with
            | none => none
            | some ((_, some err), w2) => some ((0, some err), w2)
            | some ((lookForTask, none), w2) =>
              if !lookForTask.Success then
                CreateBlockImage c fuel depth rbdCreate counter w2
              else
                some ((StatusCreated, none), w2)
          else
            some ((status, none), w1)

/-- Method `UpdateBlockImage` of `block.go`. -/
def UpdateBlockImage (c : Client) (fuel : Nat) :
    Nat → String → Option StringPtr → String → RBDUpdate → Nat → World →
      Option ((Nat × Option GoError) × World)
  | 0, _, _, _, _, _, _ => none
  | depth + 1, poolName, nameSpace, imageName, rbdUpdate, counter, w =>
    if counter > c.MaxIterations then
      some ((0, some .ErrMaxIterationsExceeded), w)
    else
      let counter := (counter + 1) % uintSize
      if poolName = "" then some ((0, some .ErrPoolNameIsEmpty), w)
      else if imageName = "" then some ((0, some .ErrImageNameIsEmpty), w)
      else if rbdUpdate.Name = "" then some ((0, some .ErrImageNameIsEmpty), w)
      else
        let imageSpec := PathJoin [.str poolName, .ptr nameSpace, .str imageName]
        let (resp, w1) := w.send (.put imageSpec rbdUpdate)
        if !resp.IsSuccess then
          if resp.StatusCode = StatusBadRequest ∧
              (resp.exception.map (fun e => e.Code)) = some "17" then
            some ((resp.StatusCode, some .ErrCreateImageAlreadyExists), w1)
          else
            some ((resp.StatusCode, some (.rawResponse resp.raw)), w1)
        else
          let status := resp.StatusCode
          if status = StatusAccepted ∨ status = StatusOK ∨ status = StatusBadRequest then
            match WaitForTaskIsDone fuel (UpdateBlockImage.lookForTask imageSpec) w1 with
            | none => none
            | some ((_, some err), w2) => some ((0, some err), w2)
            | some ((lookForTask, none), w2) =>
              if !lookForTask.Success then
                UpdateBlockImage c fuel depth poolName nameSpace imageName rbdUpdate counter w2
              else
                some ((StatusOK, none), w2)
          else
            some ((status, resp.err), w1)

/-- Method `DeleteBlockImage` of `block.go`. -/
def DeleteBlockImage (c : Client) (fuel : Nat) :
    Nat → String → Option StringPtr → String → Nat → World →
      Option ((Nat × Option GoError) × World)
  | 0, _, _, _, _, _ => none
  | depth + 1, poolName, nameSpace, imageName, counter, w =>
    if counter > c.MaxIterations then
      some ((0, some .ErrMaxIterationsExceeded), w)
    else
      let counter := (counter + 1) % uintSize
      if poolName = "" then some ((0, some .ErrPoolNameIsEmpty), w)
      else if imageName = "" then some ((0, some .ErrImageNameIsEmpty), w)
      else
        let imageSpec := PathJoin [.str poolName, .ptr nameSpace, .str imageName]
        let (resp, w1) := w.send (.delete imageSpec)
        if !resp.IsSuccess then
          some ((resp.StatusCode, some (.rawResponse resp.raw)), w1)
        else
          let status := resp.StatusCode
          if status = StatusAccepted ∨ status = StatusNoContent ∨ status = StatusBadRequest then
            match WaitForTaskIsDone fuel (DeleteBlockImage.lookForTask imageSpec) w1 with
            | none => none
            | some ((_, some err), w2) => some ((0, some err), w2)
            | some ((lookForTask, none), w2) =>
              if !lookForTask.Success then
                DeleteBlockImage c fuel depth poolName nameSpace imageName counter w2
              else
                some ((StatusNoContent, none), w2)
          else
            some ((status, resp.err), w1)

/-- Method `retryConditionCheckForAccepted` of `block.go`, as a function of the status
code of the response. -/
def retryConditionCheckForAccepted (statusCode : Nat) : Bool :=
  if statusCode = StatusOK ∨ statusCode = StatusNoContent ∨ statusCode = StatusNotFound ∨
      statusCode = StatusCreated ∨ statusCode = StatusAccepted ∨
      statusCode = StatusBadRequest then
    false
  else
    true

/-! ## `service/rbd.go` -/

/-- A value of Go type `interface{}` as `d.Get` returns it; `nil` is what it returns for
a key that the schema of the resource does not have. -/
inductive Value where
  | string (s : String)
  | int (i : Int)
  | int64 (i : Int)
  | nil
  deriving DecidableEq, Repr

/-- Run-time panics that can stop a resource function. -/
inductive Panic where
  | nilPointerDereference
  | interfaceConversion (wanted : String)
  deriving DecidableEq, Repr

/-- The method `Get` of the resource data `d`, by key. -/
abbrev ResourceData := String → Value

/-- Method `Get` for a resource with the schema of `ResourceRBD`: the keys `pool_name`,
`img_name` and `name_space` are strings, `size` is an int, and no other key exists. -/
def resourceData (poolName imgName nameSpace : String) (size : Int) : ResourceData :=
  fun key =>
    if key = "pool_name" then .string poolName
    else if key = "img_name" then .string imgName
    else if key = "name_space" then .string nameSpace
    else if key = "size" then .int size
    else .nil

/-- Go type assertion `v.(string)`. -/
def assertString : Value → Except Panic String
  | .string s => .ok s
  | _ => .error (.interfaceConversion "string")

/-- Go type assertion `v.(int)`. -/
def assertInt : Value → Except Panic Int
  | .int i => .ok i
  | _ => .error (.interfaceConversion "int")

/-- Go type assertion `v.(int64)`. -/
def assertInt64 : Value → Except Panic Int
  | .int64 i => .ok i
  | _ => .error (.interfaceConversion "int64")

/-- Go assignment `*p = v` through a `*string`: a nil pointer panics, otherwise the
variable pointed to holds `v` afterwards. -/
def storeString (p : Option StringPtr) (v : String) : Except Panic (Option StringPtr) :=
  match p with
  | none => .error .nilPointerDereference
  | some q => .ok (some { q with val := v })

/-- A call of a method of the client, with its arguments. -/
inductive ClientCall where
  | CreateBlockImage (rbdCreate : RBDCreate) (counter : Nat)
  | DeleteBlockImage (poolName : String) (nameSpace : Option StringPtr) (imageName : String)
      (counter : Nat)
  | UpdateBlockImage (poolName : String) (nameSpace : Option StringPtr) (imageName : String)
      (rbdUpdate : RBDUpdate) (counter : Nat)
  deriving DecidableEq, Repr

/-- Function `resourceRBDCreate` of `rbd.go` up to its call of `client.CreateBlockImage`:
the call it makes, or the panic that stops it before. -/
def resourceRBDCreate.clientCall (d : ResourceData) : Except Panic ClientCall := do
  let nameSpace : Option StringPtr := none
  let poolName ← assertString (d "pool_name")
  let imgName ← assertString (d "img_name")
  let nameSpace ←
    if (← assertString (d "name_space")) ≠ "" then
      storeString nameSpace (← assertString (d "name_space"))
    else
      pure nameSpace
  let rbd : RBDCreate :=
    { Features := []
      PoolName := poolName
      Namespace := nameSpace
      Name := imgName
      Size := (← assertInt (d "size"))
      ObjSize := 0
      StripeUnit := none
      StripeCount := none
      DataPool := none }
  let _ ← assertInt (d "size")
  pure (.CreateBlockImage rbd 0)

/-- Function `resourceRBDelete` of `rbd.go` up to its call of `client.DeleteBlockImage`:
the call it makes, or the panic that stops it before. -/
def resourceRBDelete.clientCall (d : ResourceData) : Except Panic ClientCall := do
  let nameSpace : Option StringPtr := none
  let nameSpace ←
    if (← assertString (d "name_space")) ≠ "" then
      storeString nameSpace (← assertString (d "name_space"))
    else
      pure nameSpace
  let poolName ← assertString (d "pool_name")
  let imgName ← assertString (d "img_name")
  pure (.DeleteBlockImage poolName nameSpace imgName 0)

/-- Function `resourceRBDUpdate` of `rbd.go` up to its call of `client.UpdateBlockImage`:
the call it makes, or the panic that stops it before. -/
def resourceRBDUpdate.clientCall (d : ResourceData) : Except Panic ClientCall := do
  let nameSpace : Option StringPtr := none
  let nameSpace ←
    if (← assertString (d "name_space")) ≠ "" then
      storeString nameSpace (← assertString (d "name_space"))
    else
      pure nameSpace
  let poolName ← assertString (d "pool_name")
  let imgName ← assertString (d "img_name")
  let rbdUpdate : RBDUpdate :=
    { Features := []
      Name := imgName
      Size := (← assertInt64 (d "img_size")) }
  pure (.UpdateBlockImage poolName nameSpace imgName rbdUpdate 0)

/-! ## Vocabulary of the statements -/

/-- The world after `n` more fetches of the task directory. -/
def World.afterFetches (w : World) (n : Nat) : World :=
  { w with fetched := w.fetched + n }

/-- What `GetTask` returns on the fetch number `k` of the task directory. -/
def World.getTaskAt (w : World) (k : Nat) : Nat × Tasks × Option GoError :=
  (GetTask { w with fetched := k }).1

/-- The error `GetTask` returns on the fetch number `k`. -/
def World.errAt (w : World) (k : Nat) : Option GoError :=
  (w.getTaskAt k).2.2

/-- The task directory `GetTask` returns on the fetch number `k`. -/
def World.tasksAt (w : World) (k : Nat) : Tasks :=
  (w.getTaskAt k).2.1

/-- The answer to the POST lets `CreateBlockImage` go on to task tracking: no error, the
success test passes and the status is in the `case` list of the `switch`. -/
def CreateBlockImage.tracked (resp : Response) : Prop :=
  resp.err = none ∧ resp.IsSuccess = true ∧
    (resp.StatusCode = StatusCreated ∨ resp.StatusCode = StatusAccepted)

/-- The answer to the PUT lets `UpdateBlockImage` go on to task tracking: the success
test passes and the status is in the `case` list of the `switch`. -/
def UpdateBlockImage.tracked (resp : Response) : Prop :=
  resp.IsSuccess = true ∧
    (resp.StatusCode = StatusAccepted ∨ resp.StatusCode = StatusOK ∨
      resp.StatusCode = StatusBadRequest)

/-- The answer to the DELETE lets `DeleteBlockImage` go on to task tracking: the success
test passes and the status is in the `case` list of the `switch`. -/
def DeleteBlockImage.tracked (resp : Response) : Prop :=
  resp.IsSuccess = true ∧
    (resp.StatusCode = StatusAccepted ∨ resp.StatusCode = StatusNoContent ∨
      resp.StatusCode = StatusBadRequest)

instance (resp : Response) : Decidable (CreateBlockImage.tracked resp) := by
  unfold CreateBlockImage.tracked; infer_instance

instance (resp : Response) : Decidable (UpdateBlockImage.tracked resp) := by
  unfold UpdateBlockImage.tracked; infer_instance

instance (resp : Response) : Decidable (DeleteBlockImage.tracked resp) := by
  unfold DeleteBlockImage.tracked; infer_instance

/-- The fetch number `w.fetched + j` is the first one from the current position of the
world on which `GetTask` returns an error, and that error is `e`. -/
def World.FirstFetchError (w : World) (j : Nat) (e : GoError) : Prop :=
  (∀ i, i < j → w.errAt (w.fetched + i) = none) ∧ w.errAt (w.fetched + j) = some e

/-- Script of the attempts `0 .. N` of one mutating request `req` tracked as `target`:
attempt `k` starts in world `ws k`, the answer to its request passes `tracked`, and
the wait that follows returns the task `ts k` without error, leaving world
`ws (k + 1)`. -/
def AttemptScript (fuel : Nat) (req : Request) (tracked : Response → Prop) (target : Task)
    (N : Nat) (ws : Nat → World) (ts : Nat → Task) : Prop :=
  ∀ k, k ≤ N →
    tracked ((ws k).mutating (ws k).sent.length) ∧
    WaitForTaskIsDone fuel target ((ws k).send req).2 = some ((ts k, none), ws (k + 1))

/-- Image spec that `UpdateBlockImage` and `DeleteBlockImage` build from their
arguments. -/
def imageSpecOf (poolName : String) (nameSpace : Option StringPtr) (imageName : String) :
    String :=
  PathJoin [.str poolName, .ptr nameSpace, .str imageName]

/-! ## Concrete inputs -/

/-- Candidate task as decoded from a server answer: namespace `ns` in a fresh variable. -/
def nsCandidate : Task :=
  { Name := "rbd/create"
    MetaData := { PoolName := "rbd", Namespace := some ⟨1, "ns"⟩, ImageName := "vol1" } }

/-- Target task built by the caller for the same image: namespace `ns` in the
variable of the caller. -/
def nsTarget : Task :=
  { Name := "rbd/create"
    MetaData := { PoolName := "rbd", Namespace := some ⟨2, "ns"⟩, ImageName := "vol1" } }

/-- Target of the creation of image `vol1` in pool `rbd`, no namespace. -/
def vol1Create : RBDCreate := { PoolName := "rbd", Name := "vol1", Size := 1073741824 }

/-- The task the server reports for `vol1Create`. -/
def vol1Task : Task := { Name := "rbd/create", MetaData := { PoolName := "rbd", ImageName := "vol1" } }

/-- The finished task of `vol1Create`, successful. -/
def vol1Done : Task := { vol1Task with Success := true, Progress := 100 }

/-- A task directory script: the task of `vol1Create` executes on the first two
fetches and is finished from the third fetch on. -/
def phaseWorld : World where
  mutating := fun _ => { StatusCode := 202 }
  taskDir := fun k =>
    if k < 2 then { StatusCode := 200, tasks := { ExecutingTasks := [vol1Task] } }
    else { StatusCode := 200, tasks := { FinishedTasks := [vol1Done] } }

/-- The end-to-end scenario of the specification: the creation is answered 202, the task
directory shows the task executing once and then finished with success. -/
def acceptedWorld : World where
  mutating := fun _ => { StatusCode := 202 }
  taskDir := fun k =>
    if k < 1 then { StatusCode := 200, tasks := { ExecutingTasks := [vol1Task] } }
    else { StatusCode := 200, tasks := { FinishedTasks := [vol1Done] } }

/-- A task directory script in which the task of `vol1Create` never shows up. -/
def silentWorld : World where
  mutating := fun _ => { StatusCode := 202 }
  taskDir := fun _ => { StatusCode := 200 }

/-- A task directory script whose third fetch fails in the HTTP library, the task of
`vol1Create` executing before that. -/
def brokenWorld : World where
  mutating := fun _ => { StatusCode := 202 }
  taskDir := fun k =>
    if k < 2 then { StatusCode := 200, tasks := { ExecutingTasks := [vol1Task] } }
    else { StatusCode := 200, err := some (.library "unexpected end of JSON input") }

/-- Target of the update of image `vol1` in pool `rbd`. -/
def vol1Edit : Task := UpdateBlockImage.lookForTask "rbd/vol1"

/-- Target of the deletion of image `vol1` in pool `rbd`. -/
def vol1Delete : Task := DeleteBlockImage.lookForTask "rbd/vol1"

/-- New description of image `vol1` for an update. -/
def vol1Update : RBDUpdate := { Name := "vol1", Size := 2147483648 }

/-- A server that accepts every mutating request with 202 and whose task directory
lists, on every fetch, no executing task and the finished task `t`, failed on the fetches
before number `2 * N` and successful from then on. -/
def retryWorld (t : Task) (N : Nat) : World where
  mutating := fun _ => { StatusCode := 202 }
  taskDir := fun k =>
    { StatusCode := 200
      tasks := { FinishedTasks := [{ t with Success := decide (2 * N ≤ k) }] } }

/-- The world `retryWorld t N` at the start of attempt `k`: `k` requests `req` sent and
two fetches made per attempt. -/
def retryWorldAt (t : Task) (req : Request) (N k : Nat) : World :=
  { retryWorld t N with sent := List.replicate k req, fetched := 2 * k }

/-- The finished task that attempt `k` finds in `retryWorld t N`. -/
def retryTaskAt (t : Task) (N k : Nat) : Task :=
  { t with Success := decide (2 * N ≤ 2 * k + 1) }

/-- A server that accepts every mutating request with 202 and whose task directory
always lists the finished task `t` as failed. -/
def failingWorld (t : Task) : World where
  mutating := fun _ => { StatusCode := 202 }
  taskDir := fun _ => { StatusCode := 200, tasks := { FinishedTasks := [{ t with Success := false }] } }

/-- The world `failingWorld t` after the requests `s` and `f` fetches. -/
def failingWorldAt (t : Task) (s : List Request) (f : Nat) : World :=
  { failingWorld t with sent := s, fetched := f }

/-- A server that answers every mutating request with 400 and the exception code 17. -/
def conflictWorld : World where
  mutating := fun _ =>
    { StatusCode := 400
      exception := some { Code := "17", Status := 400, Component := "rbd",
                          Detail := "[errno 17] RBD image already exists" }
      raw := "400 Bad Request"
      errorText := "" }
  taskDir := fun _ => { StatusCode := 200 }

/-- Renaming of image `vol1` to `vol2`. -/
def vol1Rename : RBDUpdate := { Name := "vol2", Size := 1073741824 }

/-- A server that answers every mutating request with 400 and the exception code 2,
while its task directory lists the update and the deletion of `rbd/vol1` as finished
with success. -/
def badRequestWorld : World where
  mutating := fun _ =>
    { StatusCode := 400
      exception := some { Code := "2", Status := 400, Component := "rbd",
                          Detail := "[errno 2] error" }
      raw := "400 Bad Request"
      errorText := "" }
  taskDir := fun _ =>
    { StatusCode := 200
      tasks := { FinishedTasks := [{ vol1Edit with Success := true },
                                   { vol1Delete with Success := true }] } }

/-- Creation request with an empty pool name. -/
def emptyPoolCreate : RBDCreate := { PoolName := "", Name := "vol1", Size := 1073741824 }

/-- Creation request with an empty image name. -/
def emptyNameCreate : RBDCreate := { PoolName := "rbd", Name := "", Size := 1073741824 }

/-- What the HTTP library hands back when the connection fails: the transport error,
no raw response, hence status code 0. -/
def refusedResponse : Response :=
  { err := some (.library "dial tcp 127.0.0.1:8443: connect: connection refused")
    StatusCode := 0
    raw := "<nil>" }

/-- A server that cannot be reached. -/
def refusedWorld : World where
  mutating := fun _ => refusedResponse
  taskDir := fun _ => refusedResponse

/-- The finished task of `vol1Create`, failed. -/
def vol1Failed : Task := { vol1Task with Success := false, Progress := 50 }

/-- The two worlds are at the same fetch and their task directories agree on every
fetch up to the order of the tasks inside the executing and the finished list. -/
def World.SameUpToOrder (w1 w2 : World) : Prop :=
  w1.fetched = w2.fetched ∧
  ∀ k, w1.errAt k = w2.errAt k ∧
    (w1.tasksAt k).ExecutingTasks.Perm (w2.tasksAt k).ExecutingTasks ∧
    (w1.tasksAt k).FinishedTasks.Perm (w2.tasksAt k).FinishedTasks

/-- All the tasks of the list that match the target are one and the same task. -/
def MatchesAgree (target : Task) (l : List Task) : Prop :=
  ∀ a, a ∈ l → ∀ b, b ∈ l → matchTask a target = true → matchTask b target = true → a = b

/-- A task directory that lists the creation of `vol1` twice as finished, the successful
run first. -/
def doneFirst : Tasks := { FinishedTasks := [vol1Done, vol1Failed] }

/-- The task directory `doneFirst` with its two finished tasks in the other order. -/
def failedFirst : Tasks := { FinishedTasks := [vol1Failed, vol1Done] }

/-- A task directory with two executing and two finished tasks, one of each for the
creation of `vol1`. -/
def mixedDirectory : Tasks :=
  { ExecutingTasks := [vol1Task, vol1Edit], FinishedTasks := [vol1Done, vol1Delete] }

/-- The task directory `mixedDirectory` with both lists in the other order. -/
def mixedDirectorySwapped : Tasks :=
  { ExecutingTasks := [vol1Edit, vol1Task], FinishedTasks := [vol1Delete, vol1Done] }

/-- A server whose task directory is `tasks` on every fetch. -/
def constantWorld (tasks : Tasks) : World where
  mutating := fun _ => { StatusCode := 202 }
  taskDir := fun _ => { StatusCode := 200, tasks := tasks }

/-- The value is a plain path segment: when it is not empty it contains no slash and is
neither `.` nor `..`. -/
def PlainSegment (s : String) : Prop :=
  s ≠ "" → '/' ∉ s.data ∧ s ≠ "." ∧ s ≠ ".."

/-- The characters of the segments after the first one, each preceded by a slash. -/
def slashTail : List String → List Char
  | [] => []
  | x :: rest => '/' :: (x.data ++ slashTail rest)

/-- The string value of a `*string` argument of `PathJoin`, empty for the nil pointer. -/
def ptrValue (p : Option StringPtr) : String :=
  match p with
  | none => ""
  | some q => q.val

/-- From the current fetch of the world on, every fetch succeeds and shows no task that
matches the target, neither executing nor finished. -/
def World.NeverFound (w : World) (target : Task) : Prop :=
  ∀ k, w.fetched ≤ k →
    w.errAt k = none ∧ taskIsStillExecuting target (w.tasksAt k) = false ∧
    (taskIsFinished target (w.tasksAt k)).1 = false

/-- The world after `k` attempts that each sent `req` once and waited through one fetch
of the first loop and `maxAttempts` fetches of the second. -/
def World.afterLostAttempts (w : World) (req : Request) (k : Nat) : World :=
  { w with sent := w.sent ++ List.replicate k req, fetched := w.fetched + (maxAttempts + 1) * k }

/-- The world `silentWorld` after the requests `s` and `f` fetches. -/
def silentWorldAt (s : List Request) (f : Nat) : World :=
  { silentWorld with sent := s, fetched := f }

/-- A resource description with name space `ns`. -/
def nsResource : ResourceData := resourceData "rbd" "vol1" "ns" 1073741824

/-- A resource description without name space. -/
def plainResource : ResourceData := resourceData "rbd" "vol1" "" 1073741824

/-! ## Stepping lemmas -/

theorem getTask_eq (w : World) : GetTask w = (w.getTaskAt w.fetched, w.afterFetches 1) := by
  unfold World.getTaskAt GetTask World.fetch World.afterFetches
  dsimp only
  split <;> rfl

theorem afterFetches_zero (w : World) : w.afterFetches 0 = w := rfl

theorem afterFetches_add (w : World) (n m : Nat) :
    (w.afterFetches n).afterFetches m = w.afterFetches (n + m) := by
  simp [World.afterFetches, Nat.add_assoc]

theorem afterFetches_fetched (w : World) (n : Nat) :
    (w.afterFetches n).fetched = w.fetched + n := rfl

theorem afterFetches_sent (w : World) (n : Nat) : (w.afterFetches n).sent = w.sent := rfl

theorem afterFetches_errAt (w : World) (n k : Nat) : (w.afterFetches n).errAt k = w.errAt k := rfl

theorem afterFetches_tasksAt (w : World) (n k : Nat) :
    (w.afterFetches n).tasksAt k = w.tasksAt k := rfl

theorem send_getTaskAt (w : World) (req : Request) (k : Nat) :
    (w.send req).2.getTaskAt k = w.getTaskAt k := by
  unfold World.getTaskAt GetTask World.fetch World.send
  dsimp only
  split <;> rfl

theorem send_errAt (w : World) (req : Request) (k : Nat) :
    (w.send req).2.errAt k = w.errAt k := by
  unfold World.errAt
  rw [send_getTaskAt]

theorem send_tasksAt (w : World) (req : Request) (k : Nat) :
    (w.send req).2.tasksAt k = w.tasksAt k := by
  unfold World.tasksAt
  rw [send_getTaskAt]

theorem send_fetched (w : World) (req : Request) : (w.send req).2.fetched = w.fetched := rfl

theorem phase1_err (workTask : Task) (fuel : Nat) (w : World) (e : GoError)
    (h : w.errAt w.fetched = some e) :
    WaitForTaskIsDone.phase1 workTask (fuel + 1) w = some (some e, w.afterFetches 1) := by
  unfold World.errAt at h
  rw [WaitForTaskIsDone.phase1, getTask_eq]
  rcases hq : w.getTaskAt w.fetched with ⟨s, ts, er⟩
  rw [hq] at h
  dsimp only at h
  subst h
  rfl

theorem phase1_break (workTask : Task) (fuel : Nat) (w : World)
    (h : w.errAt w.fetched = none)
    (hx : taskIsStillExecuting workTask (w.tasksAt w.fetched) = false) :
    WaitForTaskIsDone.phase1 workTask (fuel + 1) w = some (none, w.afterFetches 1) := by
  unfold World.errAt at h
  unfold World.tasksAt at hx
  rw [WaitForTaskIsDone.phase1, getTask_eq]
  rcases hq : w.getTaskAt w.fetched with ⟨s, ts, er⟩
  rw [hq] at h hx
  dsimp only at h hx
  subst h
  simp [hx]

theorem phase1_continue (workTask : Task) (fuel : Nat) (w : World)
    (h : w.errAt w.fetched = none)
    (hx : taskIsStillExecuting workTask (w.tasksAt w.fetched) = true) :
    WaitForTaskIsDone.phase1 workTask (fuel + 1) w =
      WaitForTaskIsDone.phase1 workTask fuel (w.afterFetches 1) := by
  unfold World.errAt at h
  unfold World.tasksAt at hx
  rw [WaitForTaskIsDone.phase1, getTask_eq]
  rcases hq : w.getTaskAt w.fetched with ⟨s, ts, er⟩
  rw [hq] at h hx
  dsimp only at h hx
  subst h
  simp [hx]

theorem phase2_err (workTask finishedTask : Task) (left : Nat) (w : World) (e : GoError)
    (h : w.errAt w.fetched = some e) :
    WaitForTaskIsDone.phase2 workTask (left + 1) finishedTask w =
      ((finishedTask, some e), w.afterFetches 1) := by
  unfold World.errAt at h
  rw [WaitForTaskIsDone.phase2, getTask_eq]
  rcases hq : w.getTaskAt w.fetched with ⟨s, ts, er⟩
  rw [hq] at h
  dsimp only at h
  subst h
  rfl

theorem phase2_found (workTask finishedTask ft : Task) (left : Nat) (w : World)
    (h : w.errAt w.fetched = none)
    (hx : taskIsFinished workTask (w.tasksAt w.fetched) = (true, ft)) :
    WaitForTaskIsDone.phase2 workTask (left + 1) finishedTask w =
      ((ft, none), w.afterFetches 1) := by
  unfold World.errAt at h
  unfold World.tasksAt at hx
  rw [WaitForTaskIsDone.phase2, getTask_eq]
  rcases hq : w.getTaskAt w.fetched with ⟨s, ts, er⟩
  rw [hq] at h hx
  dsimp only at h hx
  subst h
  simp [hx]

theorem phase2_continue (workTask finishedTask ft : Task) (left : Nat) (w : World)
    (h : w.errAt w.fetched = none)
    (hx : taskIsFinished workTask (w.tasksAt w.fetched) = (false, ft)) :
    WaitForTaskIsDone.phase2 workTask (left + 1) finishedTask w =
      WaitForTaskIsDone.phase2 workTask left ft (w.afterFetches 1) := by
  unfold World.errAt at h
  unfold World.tasksAt at hx
  rw [WaitForTaskIsDone.phase2, getTask_eq]
  rcases hq : w.getTaskAt w.fetched with ⟨s, ts, er⟩
  rw [hq] at h hx
  dsimp only at h hx
  subst h
  simp [hx]

theorem taskIsFinished_loop_none (task : Task) (l : List Task)
    (h : (taskIsFinished.loop task l).1 = false) : taskIsFinished.loop task l = (false, {}) := by
  induction l with
  | nil => rfl
  | cons ft rest ih =>
    unfold taskIsFinished.loop at h ⊢
    by_cases hm : matchTask ft task = true
    · simp [hm] at h
    · simp only [hm] at h ⊢
      exact ih h

theorem taskIsFinished_none (task : Task) (tasks : Tasks) (ft : Task)
    (h : taskIsFinished task tasks = (false, ft)) : ft = {} := by
  unfold taskIsFinished at h
  have h1 : (taskIsFinished.loop task tasks.FinishedTasks).1 = false := by rw [h]
  rw [taskIsFinished_loop_none task _ h1] at h
  exact (congrArg Prod.snd h).symm

/-! ## The two loops of `WaitForTaskIsDone` -/

theorem phase2_exhausted (workTask : Task) :
    ∀ (left : Nat) (w : World),
      (∀ k, w.fetched ≤ k → w.errAt k = none) →
      (∀ k, w.fetched ≤ k → (taskIsFinished workTask (w.tasksAt k)).1 = false) →
      WaitForTaskIsDone.phase2 workTask left {} w = ((({} : Task), none), w.afterFetches left) := by
  intro left
  induction left with
  | zero => intro w _ _; rfl
  | succ left ih =>
    intro w hok hfin
    have hf := hfin w.fetched (Nat.le_refl _)
    have hf2 : taskIsFinished workTask (w.tasksAt w.fetched) = (false, {}) := by
      unfold taskIsFinished at hf ⊢
      exact taskIsFinished_loop_none _ _ hf
    rw [phase2_continue workTask {} {} left w (hok _ (Nat.le_refl _)) hf2]
    rw [ih (w.afterFetches 1)]
    · rw [afterFetches_add, Nat.add_comm]
    · intro k hk
      rw [afterFetches_errAt]
      exact hok k (by rw [afterFetches_fetched] at hk; omega)
    · intro k hk
      rw [afterFetches_tasksAt]
      exact hfin k (by rw [afterFetches_fetched] at hk; omega)

theorem phase_transition (fuel : Nat) (workTask f : Task) (w : World)
    (h1 : w.errAt w.fetched = none)
    (x1 : taskIsStillExecuting workTask (w.tasksAt w.fetched) = true)
    (h2 : w.errAt (w.fetched + 1) = none)
    (x2 : taskIsStillExecuting workTask (w.tasksAt (w.fetched + 1)) = true)
    (h3 : w.errAt (w.fetched + 2) = none)
    (x3 : taskIsStillExecuting workTask (w.tasksAt (w.fetched + 2)) = false)
    (h4 : w.errAt (w.fetched + 3) = none)
    (x4 : taskIsFinished workTask (w.tasksAt (w.fetched + 3)) = (true, f)) :
    WaitForTaskIsDone.phase1 workTask (fuel + 3) w = some (none, w.afterFetches 3) ∧
    WaitForTaskIsDone.phase2 workTask maxAttempts {} (w.afterFetches 3) =
      ((f, none), w.afterFetches 4) ∧
    WaitForTaskIsDone (fuel + 3) workTask w = some ((f, none), w.afterFetches 4) := by
  have p1 : WaitForTaskIsDone.phase1 workTask (fuel + 3) w = some (none, w.afterFetches 3) := by
    rw [phase1_continue workTask (fuel + 2) w h1 x1]
    rw [phase1_continue workTask (fuel + 1) (w.afterFetches 1) h2 x2]
    rw [phase1_break workTask fuel ((w.afterFetches 1).afterFetches 1) h3 x3]
    rfl
  have p2 : WaitForTaskIsDone.phase2 workTask maxAttempts {} (w.afterFetches 3) =
      ((f, none), w.afterFetches 4) := by
    exact phase2_found workTask {} f 599 (w.afterFetches 3) h4 x4
  refine ⟨p1, p2, ?_⟩
  unfold WaitForTaskIsDone
  rw [p1]
  dsimp only
  rw [p2]

theorem phase1_first_error (workTask : Task) :
    ∀ (fuel : Nat) (w : World) (j : Nat) (e : GoError),
      w.FirstFetchError j e → j < fuel →
      ∃ n r, WaitForTaskIsDone.phase1 workTask fuel w = some (r, w.afterFetches n) ∧
        ((n = j + 1 ∧ r = some e) ∨ (1 ≤ n ∧ n ≤ j ∧ r = none)) := by
  intro fuel
  induction fuel with
  | zero => intro w j e _ hj; omega
  | succ fuel ih =>
    intro w j e hfirst hj
    obtain ⟨hbefore, hat⟩ := hfirst
    cases j with
    | zero =>
      exact ⟨1, some e, phase1_err workTask fuel w e hat, Or.inl ⟨rfl, rfl⟩⟩
    | succ j =>
      have h0 : w.errAt w.fetched = none := hbefore 0 (Nat.succ_pos j)
      by_cases hx : taskIsStillExecuting workTask (w.tasksAt w.fetched) = true
      · rw [phase1_continue workTask fuel w h0 hx]
        have hshift : (w.afterFetches 1).FirstFetchError j e := by
          constructor
          · intro i hi
            rw [afterFetches_errAt, afterFetches_fetched, Nat.add_assoc, Nat.add_comm 1 i]
            exact hbefore (i + 1) (by omega)
          · rw [afterFetches_errAt, afterFetches_fetched, Nat.add_assoc, Nat.add_comm 1 j]
            exact hat
        obtain ⟨n, r, hrun, hcase⟩ := ih (w.afterFetches 1) j e hshift (by omega)
        refine ⟨1 + n, r, ?_, ?_⟩
        · rw [hrun, afterFetches_add]
        · rcases hcase with ⟨hn, hr⟩ | ⟨hn1, hn2, hr⟩
          · exact Or.inl ⟨by omega, hr⟩
          · exact Or.inr ⟨by omega, by omega, hr⟩
      · have hx2 : taskIsStillExecuting workTask (w.tasksAt w.fetched) = false := by
          simpa using hx
        exact ⟨1, none, phase1_break workTask fuel w h0 hx2, Or.inr ⟨le_refl _, by omega, rfl⟩⟩

theorem phase2_first_error (workTask : Task) :
    ∀ (left : Nat) (w : World) (j : Nat) (e : GoError),
      w.FirstFetchError j e →
      ∃ n r, WaitForTaskIsDone.phase2 workTask left {} w = (r, w.afterFetches n) ∧
        ((n = j + 1 ∧ r = (({} : Task), some e)) ∨ (n ≤ j ∧ r.2 = none)) := by
  intro left
  induction left with
  | zero =>
    intro w j e _
    exact ⟨0, (({} : Task), none), rfl, Or.inr ⟨Nat.zero_le _, rfl⟩⟩
  | succ left ih =>
    intro w j e hfirst
    obtain ⟨hbefore, hat⟩ := hfirst
    cases j with
    | zero =>
      exact ⟨1, (({} : Task), some e), phase2_err workTask {} left w e hat, Or.inl ⟨rfl, rfl⟩⟩
    | succ j =>
      have h0 : w.errAt w.fetched = none := hbefore 0 (Nat.succ_pos j)
      rcases hfin : taskIsFinished workTask (w.tasksAt w.fetched) with ⟨b, ft⟩
      cases b with
      | true =>
        exact ⟨1, (ft, none), phase2_found workTask {} ft left w h0 hfin,
          Or.inr ⟨by omega, rfl⟩⟩
      | false =>
        have hft : ft = {} := taskIsFinished_none _ _ _ hfin
        subst hft
        rw [phase2_continue workTask {} {} left w h0 hfin]
        have hshift : (w.afterFetches 1).FirstFetchError j e := by
          constructor
          · intro i hi
            rw [afterFetches_errAt, afterFetches_fetched, Nat.add_assoc, Nat.add_comm 1 i]
            exact hbefore (i + 1) (by omega)
          · rw [afterFetches_errAt, afterFetches_fetched, Nat.add_assoc, Nat.add_comm 1 j]
            exact hat
        obtain ⟨n, r, hrun, hcase⟩ := ih (w.afterFetches 1) j e hshift
        refine ⟨1 + n, r, ?_, ?_⟩
        · rw [hrun, afterFetches_add]
        · rcases hcase with ⟨hn, hr⟩ | ⟨hn, hr⟩
          · exact Or.inl ⟨by omega, hr⟩
          · exact Or.inr ⟨by omega, hr⟩

theorem firstFetchError_shift (w : World) (n j : Nat) (e : GoError)
    (hfirst : w.FirstFetchError j e) (hn : n ≤ j) :
    (w.afterFetches n).FirstFetchError (j - n) e := by
  obtain ⟨hbefore, hat⟩ := hfirst
  constructor
  · intro i hi
    rw [afterFetches_errAt, afterFetches_fetched, Nat.add_assoc]
    exact hbefore (n + i) (by omega)
  · rw [afterFetches_errAt, afterFetches_fetched, Nat.add_assoc]
    have : n + (j - n) = j := by omega
    rw [this]
    exact hat

theorem wait_first_error (workTask : Task) (fuel : Nat) (w : World) (j : Nat) (e : GoError)
    (hfirst : w.FirstFetchError j e) (hj : j < fuel) :
    ∃ n r, WaitForTaskIsDone fuel workTask w = some (r, w.afterFetches n) ∧
      ((n = j + 1 ∧ r = (({} : Task), some e)) ∨ (1 ≤ n ∧ n ≤ j ∧ r.2 = none)) := by
  obtain ⟨n1, r1, hrun1, hcase1⟩ := phase1_first_error workTask fuel w j e hfirst hj
  unfold WaitForTaskIsDone
  rw [hrun1]
  rcases hcase1 with ⟨hn, hr⟩ | ⟨hn1, hn2, hr⟩
  · subst hr
    exact ⟨n1, _, rfl, Or.inl ⟨hn, rfl⟩⟩
  · subst hr
    dsimp only
    obtain ⟨n2, r2, hrun2, hcase2⟩ :=
      phase2_first_error workTask maxAttempts (w.afterFetches n1) (j - n1) e
        (firstFetchError_shift w n1 j e hfirst hn2)
    refine ⟨n1 + n2, r2, ?_, ?_⟩
    · rw [hrun2, afterFetches_add]
    · rcases hcase2 with ⟨hn, hr⟩ | ⟨hn, hr⟩
      · exact Or.inl ⟨by omega, hr⟩
      · exact Or.inr ⟨by omega, by omega, hr⟩

theorem phase1_frame (workTask : Task) :
    ∀ (fuel : Nat) (w : World) (r : Option GoError) (w1 : World),
      WaitForTaskIsDone.phase1 workTask fuel w = some (r, w1) →
      ∃ n, 1 ≤ n ∧ w1 = w.afterFetches n := by
  intro fuel
  induction fuel with
  | zero => intro w r w1 h; simp [WaitForTaskIsDone.phase1] at h
  | succ fuel ih =>
    intro w r w1 h
    rcases he : w.errAt w.fetched with _ | e
    · by_cases hx : taskIsStillExecuting workTask (w.tasksAt w.fetched) = true
      · rw [phase1_continue workTask fuel w he hx] at h
        obtain ⟨n, hn, hw⟩ := ih _ _ _ h
        exact ⟨1 + n, by omega, by rw [hw, afterFetches_add]⟩
      · have hx2 : taskIsStillExecuting workTask (w.tasksAt w.fetched) = false := by
          simpa using hx
        rw [phase1_break workTask fuel w he hx2] at h
        simp only [Option.some.injEq, Prod.mk.injEq] at h
        exact ⟨1, le_refl _, h.2.symm⟩
    · rw [phase1_err workTask fuel w e he] at h
      simp only [Option.some.injEq, Prod.mk.injEq] at h
      exact ⟨1, le_refl _, h.2.symm⟩

theorem phase2_frame (workTask : Task) :
    ∀ (left : Nat) (ft : Task) (w : World),
      ∃ n, n ≤ left ∧ (WaitForTaskIsDone.phase2 workTask left ft w).2 = w.afterFetches n := by
  intro left
  induction left with
  | zero => intro ft w; exact ⟨0, le_refl _, rfl⟩
  | succ left ih =>
    intro ft w
    rcases he : w.errAt w.fetched with _ | e
    · rcases hfin : taskIsFinished workTask (w.tasksAt w.fetched) with ⟨b, ft2⟩
      cases b with
      | true =>
        rw [phase2_found workTask ft ft2 left w he hfin]
        exact ⟨1, by omega, rfl⟩
      | false =>
        rw [phase2_continue workTask ft ft2 left w he hfin]
        obtain ⟨n, hn, hw⟩ := ih ft2 (w.afterFetches 1)
        exact ⟨1 + n, by omega, by rw [hw, afterFetches_add]⟩
    · rw [phase2_err workTask ft left w e he]
      exact ⟨1, by omega, rfl⟩

theorem wait_frame (workTask : Task) (fuel : Nat) (w : World) (r : Task × Option GoError)
    (w1 : World) (h : WaitForTaskIsDone fuel workTask w = some (r, w1)) :
    ∃ n, 1 ≤ n ∧ w1 = w.afterFetches n := by
  unfold WaitForTaskIsDone at h
  rcases h1 : WaitForTaskIsDone.phase1 workTask fuel w with _ | ⟨r1, w2⟩
  · rw [h1] at h; simp at h
  · rw [h1] at h
    obtain ⟨n1, hn1, hw2⟩ := phase1_frame workTask fuel w r1 w2 h1
    cases r1 with
    | some e =>
      simp only [Option.some.injEq, Prod.mk.injEq] at h
      exact ⟨n1, hn1, by rw [← h.2, hw2]⟩
    | none =>
      simp only [Option.some.injEq] at h
      obtain ⟨n2, _, hw3⟩ := phase2_frame workTask maxAttempts {} w2
      refine ⟨n1 + n2, by omega, ?_⟩
      rw [h] at hw3
      dsimp only at hw3
      rw [hw3, hw2, afterFetches_add]

theorem wait_sent (workTask : Task) (fuel : Nat) (w : World) (r : Task × Option GoError)
    (w1 : World) (h : WaitForTaskIsDone fuel workTask w = some (r, w1)) : w1.sent = w.sent := by
  obtain ⟨n, _, hw⟩ := wait_frame workTask fuel w r w1 h
  rw [hw]
  rfl

/-! ## One call of an orchestrator -/

theorem create_exceeded (c : Client) (fuel depth : Nat) (rbdCreate : RBDCreate) (counter : Nat)
    (w : World) (h : c.MaxIterations < counter) :
    CreateBlockImage c fuel (depth + 1) rbdCreate counter w =
      some ((0, some .ErrMaxIterationsExceeded), w) := by
  rw [CreateBlockImage, if_pos h]

theorem create_wait_error (c : Client) (fuel depth : Nat) (rbdCreate : RBDCreate)
    (counter : Nat) (w w2 : World) (t : Task) (e : GoError)
    (hc : counter ≤ c.MaxIterations)
    (ht : CreateBlockImage.tracked (w.mutating w.sent.length))
    (hw : WaitForTaskIsDone fuel (CreateBlockImage.lookForTask rbdCreate)
      (w.send (.post rbdCreate)).2 = some ((t, some e), w2)) :
    CreateBlockImage c fuel (depth + 1) rbdCreate counter w = some ((0, some e), w2) := by
  obtain ⟨he, hs, hst⟩ := ht
  rw [CreateBlockImage, if_neg (Nat.not_lt.mpr hc)]
  simp only [World.send] at hw ⊢
  simp only [he, hs, hst, hw]
  simp

theorem create_wait_success (c : Client) (fuel depth : Nat) (rbdCreate : RBDCreate)
    (counter : Nat) (w w2 : World) (t : Task)
    (hc : counter ≤ c.MaxIterations)
    (ht : CreateBlockImage.tracked (w.mutating w.sent.length))
    (hw : WaitForTaskIsDone fuel (CreateBlockImage.lookForTask rbdCreate)
      (w.send (.post rbdCreate)).2 = some ((t, none), w2))
    (hsucc : t.Success = true) :
    CreateBlockImage c fuel (depth + 1) rbdCreate counter w =
      some ((StatusCreated, none), w2) := by
  obtain ⟨he, hs, hst⟩ := ht
  rw [CreateBlockImage, if_neg (Nat.not_lt.mpr hc)]
  simp only [World.send] at hw ⊢
  simp only [he, hs, hst, hw]
  simp [hsucc]

theorem create_wait_retry (c : Client) (fuel depth : Nat) (rbdCreate : RBDCreate)
    (counter : Nat) (w w2 : World) (t : Task)
    (hc : counter ≤ c.MaxIterations)
    (ht : CreateBlockImage.tracked (w.mutating w.sent.length))
    (hw : WaitForTaskIsDone fuel (CreateBlockImage.lookForTask rbdCreate)
      (w.send (.post rbdCreate)).2 = some ((t, none), w2))
    (hfail : t.Success = false) :
    CreateBlockImage c fuel (depth + 1) rbdCreate counter w =
      CreateBlockImage c fuel depth rbdCreate ((counter + 1) % uintSize) w2 := by
  obtain ⟨he, hs, hst⟩ := ht
  rw [CreateBlockImage, if_neg (Nat.not_lt.mpr hc)]
  simp only [World.send] at hw ⊢
  simp only [he, hs, hst, hw]
  simp [hfail]

theorem update_exceeded (c : Client) (fuel depth : Nat) (poolName : String) (nameSpace : Option StringPtr) (imageName : String)
    (rbdUpdate : RBDUpdate)
    (counter : Nat) (w : World) (h : c.MaxIterations < counter) :
    UpdateBlockImage c fuel (depth + 1) poolName nameSpace imageName rbdUpdate counter w =
      some ((0, some .ErrMaxIterationsExceeded), w) := by
  rw [UpdateBlockImage, if_pos h]

theorem update_wait_error (c : Client) (fuel depth : Nat) (poolName : String) (nameSpace : Option StringPtr) (imageName : String)
    (rbdUpdate : RBDUpdate)
    (counter : Nat) (w w2 : World) (t : Task) (e : GoError)
    (hpool : poolName ≠ "") (himage : imageName ≠ "") (hnew : rbdUpdate.Name ≠ "")
    (hc : counter ≤ c.MaxIterations)
    (ht : UpdateBlockImage.tracked (w.mutating w.sent.length))
    (hw : WaitForTaskIsDone fuel
      (UpdateBlockImage.lookForTask (PathJoin [.str poolName, .ptr nameSpace, .str imageName]))
      (w.send (.put (PathJoin [.str poolName, .ptr nameSpace, .str imageName]) rbdUpdate)).2 = some ((t, some e), w2)) :
    UpdateBlockImage c fuel (depth + 1) poolName nameSpace imageName rbdUpdate counter w = some ((0, some e), w2) := by
  obtain ⟨hs, hst⟩ := ht
  rw [UpdateBlockImage, if_neg (Nat.not_lt.mpr hc)]
  simp only [World.send] at hw ⊢
  simp only [hpool, himage, hnew, hs, hst, hw]
  simp

theorem update_wait_success (c : Client) (fuel depth : Nat) (poolName : String) (nameSpace : Option StringPtr) (imageName : String)
    (rbdUpdate : RBDUpdate)
    (counter : Nat) (w w2 : World) (t : Task)
    (hpool : poolName ≠ "") (himage : imageName ≠ "") (hnew : rbdUpdate.Name ≠ "")
    (hc : counter ≤ c.MaxIterations)
    (ht : UpdateBlockImage.tracked (w.mutating w.sent.length))
    (hw : WaitForTaskIsDone fuel
      (UpdateBlockImage.lookForTask (PathJoin [.str poolName, .ptr nameSpace, .str imageName]))
      (w.send (.put (PathJoin [.str poolName, .ptr nameSpace, .str imageName]) rbdUpdate)).2 = some ((t, none), w2))
    (hsucc : t.Success = true) :
    UpdateBlockImage c fuel (depth + 1) poolName nameSpace imageName rbdUpdate counter w = some ((StatusOK, none), w2) := by
  obtain ⟨hs, hst⟩ := ht
  rw [UpdateBlockImage, if_neg (Nat.not_lt.mpr hc)]
  simp only [World.send] at hw ⊢
  simp only [hpool, himage, hnew, hs, hst, hw]
  simp [hsucc]

theorem update_wait_retry (c : Client) (fuel depth : Nat) (poolName : String) (nameSpace : Option StringPtr) (imageName : String)
    (rbdUpdate : RBDUpdate)
    (counter : Nat) (w w2 : World) (t : Task)
    (hpool : poolName ≠ "") (himage : imageName ≠ "") (hnew : rbdUpdate.Name ≠ "")
    (hc : counter ≤ c.MaxIterations)
    (ht : UpdateBlockImage.tracked (w.mutating w.sent.length))
    (hw : WaitForTaskIsDone fuel
      (UpdateBlockImage.lookForTask (PathJoin [.str poolName, .ptr nameSpace, .str imageName]))
      (w.send (.put (PathJoin [.str poolName, .ptr nameSpace, .str imageName]) rbdUpdate)).2 = some ((t, none), w2))
    (hfail : t.Success = false) :
    UpdateBlockImage c fuel (depth + 1) poolName nameSpace imageName rbdUpdate counter w =
      UpdateBlockImage c fuel depth poolName nameSpace imageName rbdUpdate ((counter + 1) % uintSize) w2 := by
  obtain ⟨hs, hst⟩ := ht
  rw [UpdateBlockImage, if_neg (Nat.not_lt.mpr hc)]
  simp only [World.send] at hw ⊢
  simp only [hpool, himage, hnew, hs, hst, hw]
  simp [hfail]

theorem delete_exceeded (c : Client) (fuel depth : Nat) (poolName : String) (nameSpace : Option StringPtr) (imageName : String)
    (counter : Nat) (w : World) (h : c.MaxIterations < counter) :
    DeleteBlockImage c fuel (depth + 1) poolName nameSpace imageName counter w =
      some ((0, some .ErrMaxIterationsExceeded), w) := by
  rw [DeleteBlockImage, if_pos h]

theorem delete_wait_error (c : Client) (fuel depth : Nat) (poolName : String) (nameSpace : Option StringPtr) (imageName : String)
    (counter : Nat) (w w2 : World) (t : Task) (e : GoError)
    (hpool : poolName ≠ "") (himage : imageName ≠ "")
    (hc : counter ≤ c.MaxIterations)
    (ht : DeleteBlockImage.tracked (w.mutating w.sent.length))
    (hw : WaitForTaskIsDone fuel
      (DeleteBlockImage.lookForTask (PathJoin [.str poolName, .ptr nameSpace, .str imageName]))
      (w.send (.delete (PathJoin [.str poolName, .ptr nameSpace, .str imageName]))).2 = some ((t, some e), w2)) :
    DeleteBlockImage c fuel (depth + 1) poolName nameSpace imageName counter w = some ((0, some e), w2) := by
  obtain ⟨hs, hst⟩ := ht
  rw [DeleteBlockImage, if_neg (Nat.not_lt.mpr hc)]
  simp only [World.send] at hw ⊢
  simp only [hpool, himage, hs, hst, hw]
  simp

theorem delete_wait_success (c : Client) (fuel depth : Nat) (poolName : String) (nameSpace : Option StringPtr) (imageName : String)
    (counter : Nat) (w w2 : World) (t : Task)
    (hpool : poolName ≠ "") (himage : imageName ≠ "")
    (hc : counter ≤ c.MaxIterations)
    (ht : DeleteBlockImage.tracked (w.mutating w.sent.length))
    (hw : WaitForTaskIsDone fuel
      (DeleteBlockImage.lookForTask (PathJoin [.str poolName, .ptr nameSpace, .str imageName]))
      (w.send (.delete (PathJoin [.str poolName, .ptr nameSpace, .str imageName]))).2 = some ((t, none), w2))
    (hsucc : t.Success = true) :
    DeleteBlockImage c fuel (depth + 1) poolName nameSpace imageName counter w = some ((StatusNoContent, none), w2) := by
  obtain ⟨hs, hst⟩ := ht
  rw [DeleteBlockImage, if_neg (Nat.not_lt.mpr hc)]
  simp only [World.send] at hw ⊢
  simp only [hpool, himage, hs, hst, hw]
  simp [hsucc]

theorem delete_wait_retry (c : Client) (fuel depth : Nat) (poolName : String) (nameSpace : Option StringPtr) (imageName : String)
    (counter : Nat) (w w2 : World) (t : Task)
    (hpool : poolName ≠ "") (himage : imageName ≠ "")
    (hc : counter ≤ c.MaxIterations)
    (ht : DeleteBlockImage.tracked (w.mutating w.sent.length))
    (hw : WaitForTaskIsDone fuel
      (DeleteBlockImage.lookForTask (PathJoin [.str poolName, .ptr nameSpace, .str imageName]))
      (w.send (.delete (PathJoin [.str poolName, .ptr nameSpace, .str imageName]))).2 = some ((t, none), w2))
    (hfail : t.Success = false) :
    DeleteBlockImage c fuel (depth + 1) poolName nameSpace imageName counter w =
      DeleteBlockImage c fuel depth poolName nameSpace imageName ((counter + 1) % uintSize) w2 := by
  obtain ⟨hs, hst⟩ := ht
  rw [DeleteBlockImage, if_neg (Nat.not_lt.mpr hc)]
  simp only [World.send] at hw ⊢
  simp only [hpool, himage, hs, hst, hw]
  simp [hfail]

theorem update_not_success (c : Client) (fuel depth : Nat) (poolName : String)
    (nameSpace : Option StringPtr) (imageName : String) (rbdUpdate : RBDUpdate)
    (counter : Nat) (w : World)
    (hpool : poolName ≠ "") (himage : imageName ≠ "") (hnew : rbdUpdate.Name ≠ "")
    (hc : counter ≤ c.MaxIterations)
    (hs : (w.mutating w.sent.length).IsSuccess = false) :
    ∃ e, UpdateBlockImage c fuel (depth + 1) poolName nameSpace imageName rbdUpdate counter w =
      some (((w.mutating w.sent.length).StatusCode, some e),
        (w.send (.put (imageSpecOf poolName nameSpace imageName) rbdUpdate)).2) := by
  rw [UpdateBlockImage, if_neg (Nat.not_lt.mpr hc)]
  simp only [World.send, imageSpecOf, hpool, himage, hnew, hs]
  by_cases h17 : (w.mutating w.sent.length).StatusCode = StatusBadRequest ∧
      Option.map (fun e => e.Code) (w.mutating w.sent.length).exception = some "17"
  · exact ⟨.ErrCreateImageAlreadyExists, by rw [if_pos h17]; rfl⟩
  · exact ⟨.rawResponse (w.mutating w.sent.length).raw, by rw [if_neg h17]; rfl⟩

theorem delete_not_success (c : Client) (fuel depth : Nat) (poolName : String)
    (nameSpace : Option StringPtr) (imageName : String) (counter : Nat) (w : World)
    (hpool : poolName ≠ "") (himage : imageName ≠ "")
    (hc : counter ≤ c.MaxIterations)
    (hs : (w.mutating w.sent.length).IsSuccess = false) :
    DeleteBlockImage c fuel (depth + 1) poolName nameSpace imageName counter w =
      some (((w.mutating w.sent.length).StatusCode,
          some (.rawResponse (w.mutating w.sent.length).raw)),
        (w.send (.delete (imageSpecOf poolName nameSpace imageName))).2) := by
  rw [DeleteBlockImage, if_neg (Nat.not_lt.mpr hc)]
  simp [World.send, imageSpecOf, hpool, himage, hs]

theorem isSuccess_bad_request (resp : Response) (h : resp.StatusCode = StatusBadRequest) :
    resp.IsSuccess = false := by
  simp [Response.IsSuccess, h, StatusBadRequest]

/-! ## Chains of attempts -/

theorem uintSize_pos : 0 < uintSize := by
  unfold uintSize
  exact Nat.pos_pow_of_pos 64 (by decide)

theorem script_sent (fuel : Nat) (req : Request) (tracked : Response → Prop) (target : Task)
    (N : Nat) (ws : Nat → World) (ts : Nat → Task)
    (hs : AttemptScript fuel req tracked target N ws ts) :
    ∀ k, k ≤ N + 1 → (ws k).sent = (ws 0).sent ++ List.replicate k req := by
  intro k
  induction k with
  | zero => intro _; simp
  | succ k ih =>
    intro hk
    obtain ⟨_, hw⟩ := hs k (by omega)
    rw [wait_sent target fuel _ _ _ hw]
    show (ws k).sent ++ [req] = _
    rw [ih (by omega), List.replicate_succ', List.append_assoc]

theorem failed_attempts {R : Type} (F : Nat → Nat → World → Option R) (M fuel : Nat)
    (req : Request) (tracked : Response → Prop) (target : Task)
    (N : Nat) (ws : Nat → World) (ts : Nat → Task)
    (hstep : ∀ depth counter w w2 t, counter ≤ M → tracked (w.mutating w.sent.length) →
      WaitForTaskIsDone fuel target (w.send req).2 = some ((t, none), w2) →
      t.Success = false → F (depth + 1) counter w = F depth ((counter + 1) % uintSize) w2)
    (hs : AttemptScript fuel req tracked target N ws ts) :
    ∀ k, k ≤ N + 1 → k ≤ M + 1 → k < uintSize → (∀ i, i < k → (ts i).Success = false) →
      ∀ d, F (k + d) 0 (ws 0) = F d k (ws k) := by
  intro k
  induction k with
  | zero => intro _ _ _ _ d; rw [Nat.zero_add]
  | succ k ih =>
    intro hkN hkM hku hf d
    have ih2 := ih (by omega) (by omega) (by omega) (fun i hi => hf i (by omega)) (d + 1)
    have hd : k + 1 + d = k + (d + 1) := by omega
    obtain ⟨htr, hw⟩ := hs k (by omega)
    rw [hd, ih2, hstep d k (ws k) (ws (k + 1)) (ts k) (by omega) htr hw (hf k (by omega)),
      Nat.mod_eq_of_lt hku]

theorem create_until_success (c : Client) (fuel N : Nat) (rbdCreate : RBDCreate)
    (ws : Nat → World) (ts : Nat → Task)
    (hN : N ≤ c.MaxIterations) (hM : c.MaxIterations < uintSize)
    (hs : AttemptScript fuel (.post rbdCreate) CreateBlockImage.tracked
      (CreateBlockImage.lookForTask rbdCreate) N ws ts)
    (hfail : ∀ k, k < N → (ts k).Success = false) (hsucc : (ts N).Success = true)
    (depth : Nat) (hd : N < depth) :
    CreateBlockImage c fuel depth rbdCreate 0 (ws 0) = some ((201, none), ws (N + 1)) := by
  obtain ⟨d, rfl⟩ : ∃ d, depth = N + (d + 1) := ⟨depth - N - 1, by omega⟩
  rw [failed_attempts (fun depth counter w => CreateBlockImage c fuel depth rbdCreate counter w)
    c.MaxIterations fuel _ _ _ N ws ts
    (fun depth counter w w2 t hc ht hw hf =>
      create_wait_retry c fuel depth rbdCreate counter w w2 t hc ht hw hf)
    hs N (by omega) (by omega) (by omega) hfail (d + 1)]
  obtain ⟨htr, hw⟩ := hs N (le_refl _)
  exact create_wait_success c fuel d rbdCreate N (ws N) (ws (N + 1)) (ts N) hN htr hw hsucc

theorem create_budget (c : Client) (fuel : Nat) (rbdCreate : RBDCreate)
    (ws : Nat → World) (ts : Nat → Task)
    (hM : c.MaxIterations + 1 < uintSize)
    (hs : AttemptScript fuel (.post rbdCreate) CreateBlockImage.tracked
      (CreateBlockImage.lookForTask rbdCreate) c.MaxIterations ws ts)
    (hfail : ∀ k, k ≤ c.MaxIterations → (ts k).Success = false)
    (depth : Nat) (hd : c.MaxIterations + 1 < depth) :
    CreateBlockImage c fuel depth rbdCreate 0 (ws 0) =
      some ((0, some .ErrMaxIterationsExceeded), ws (c.MaxIterations + 1)) := by
  obtain ⟨d, rfl⟩ : ∃ d, depth = c.MaxIterations + 1 + (d + 1) :=
    ⟨depth - c.MaxIterations - 2, by omega⟩
  rw [failed_attempts (fun depth counter w => CreateBlockImage c fuel depth rbdCreate counter w)
    c.MaxIterations fuel _ _ _ c.MaxIterations ws ts
    (fun depth counter w w2 t hc ht hw hf =>
      create_wait_retry c fuel depth rbdCreate counter w w2 t hc ht hw hf)
    hs (c.MaxIterations + 1) (le_refl _) (le_refl _) hM
    (fun i hi => hfail i (by omega)) (d + 1)]
  exact create_exceeded c fuel d rbdCreate _ _ (by omega)

theorem update_until_success (c : Client) (fuel N : Nat) (poolName : String) (nameSpace : Option StringPtr) (imageName : String)
    (rbdUpdate : RBDUpdate)
    (ws : Nat → World) (ts : Nat → Task)
    (hpool : poolName ≠ "") (himage : imageName ≠ "") (hnew : rbdUpdate.Name ≠ "")
    (hN : N ≤ c.MaxIterations) (hM : c.MaxIterations < uintSize)
    (hs : AttemptScript fuel (.put (imageSpecOf poolName nameSpace imageName) rbdUpdate) UpdateBlockImage.tracked
      (UpdateBlockImage.lookForTask (imageSpecOf poolName nameSpace imageName)) N ws ts)
    (hfail : ∀ k, k < N → (ts k).Success = false) (hsucc : (ts N).Success = true)
    (depth : Nat) (hd : N < depth) :
    UpdateBlockImage c fuel depth poolName nameSpace imageName rbdUpdate 0 (ws 0) = some ((200, none), ws (N + 1)) := by
  obtain ⟨d, rfl⟩ : ∃ d, depth = N + (d + 1) := ⟨depth - N - 1, by omega⟩
  unfold imageSpecOf at hs
  rw [failed_attempts (fun depth counter w => UpdateBlockImage c fuel depth poolName nameSpace imageName rbdUpdate counter w)
    c.MaxIterations fuel _ _ _ N ws ts
    (fun depth counter w w2 t hc ht hw hf =>
      update_wait_retry c fuel depth poolName nameSpace imageName rbdUpdate counter w w2 t hpool himage hnew hc ht hw hf)
    hs N (by omega) (by omega) (by omega) hfail (d + 1)]
  obtain ⟨htr, hw⟩ := hs N (le_refl _)
  exact update_wait_success c fuel d poolName nameSpace imageName rbdUpdate N (ws N) (ws (N + 1)) (ts N)
    hpool himage hnew hN htr hw hsucc

theorem update_budget (c : Client) (fuel : Nat) (poolName : String) (nameSpace : Option StringPtr) (imageName : String)
    (rbdUpdate : RBDUpdate)
    (ws : Nat → World) (ts : Nat → Task)
    (hpool : poolName ≠ "") (himage : imageName ≠ "") (hnew : rbdUpdate.Name ≠ "")
    (hM : c.MaxIterations + 1 < uintSize)
    (hs : AttemptScript fuel (.put (imageSpecOf poolName nameSpace imageName) rbdUpdate) UpdateBlockImage.tracked
      (UpdateBlockImage.lookForTask (imageSpecOf poolName nameSpace imageName)) c.MaxIterations ws ts)
    (hfail : ∀ k, k ≤ c.MaxIterations → (ts k).Success = false)
    (depth : Nat) (hd : c.MaxIterations + 1 < depth) :
    UpdateBlockImage c fuel depth poolName nameSpace imageName rbdUpdate 0 (ws 0) =
      some ((0, some .ErrMaxIterationsExceeded), ws (c.MaxIterations + 1)) := by
  obtain ⟨d, rfl⟩ : ∃ d, depth = c.MaxIterations + 1 + (d + 1) :=
    ⟨depth - c.MaxIterations - 2, by omega⟩
  unfold imageSpecOf at hs
  rw [failed_attempts (fun depth counter w => UpdateBlockImage c fuel depth poolName nameSpace imageName rbdUpdate counter w)
    c.MaxIterations fuel _ _ _ c.MaxIterations ws ts
    (fun depth counter w w2 t hc ht hw hf =>
      update_wait_retry c fuel depth poolName nameSpace imageName rbdUpdate counter w w2 t hpool himage hnew hc ht hw hf)
    hs (c.MaxIterations + 1) (le_refl _) (le_refl _) hM
    (fun i hi => hfail i (by omega)) (d + 1)]
  exact update_exceeded c fuel d poolName nameSpace imageName rbdUpdate _ _ (by omega)

theorem delete_until_success (c : Client) (fuel N : Nat) (poolName : String) (nameSpace : Option StringPtr) (imageName : String)
    (ws : Nat → World) (ts : Nat → Task)
    (hpool : poolName ≠ "") (himage : imageName ≠ "")
    (hN : N ≤ c.MaxIterations) (hM : c.MaxIterations < uintSize)
    (hs : AttemptScript fuel (.delete (imageSpecOf poolName nameSpace imageName)) DeleteBlockImage.tracked
      (DeleteBlockImage.lookForTask (imageSpecOf poolName nameSpace imageName)) N ws ts)
    (hfail : ∀ k, k < N → (ts k).Success = false) (hsucc : (ts N).Success = true)
    (depth : Nat) (hd : N < depth) :
    DeleteBlockImage c fuel depth poolName nameSpace imageName 0 (ws 0) = some ((204, none), ws (N + 1)) := by
  obtain ⟨d, rfl⟩ : ∃ d, depth = N + (d + 1) := ⟨depth - N - 1, by omega⟩
  unfold imageSpecOf at hs
  rw [failed_attempts (fun depth counter w => DeleteBlockImage c fuel depth poolName nameSpace imageName counter w)
    c.MaxIterations fuel _ _ _ N ws ts
    (fun depth counter w w2 t hc ht hw hf =>
      delete_wait_retry c fuel depth poolName nameSpace imageName counter w w2 t hpool himage hc ht hw hf)
    hs N (by omega) (by omega) (by omega) hfail (d + 1)]
  obtain ⟨htr, hw⟩ := hs N (le_refl _)
  exact delete_wait_success c fuel d poolName nameSpace imageName N (ws N) (ws (N + 1)) (ts N)
    hpool himage hN htr hw hsucc

theorem delete_budget (c : Client) (fuel : Nat) (poolName : String) (nameSpace : Option StringPtr) (imageName : String)
    (ws : Nat → World) (ts : Nat → Task)
    (hpool : poolName ≠ "") (himage : imageName ≠ "")
    (hM : c.MaxIterations + 1 < uintSize)
    (hs : AttemptScript fuel (.delete (imageSpecOf poolName nameSpace imageName)) DeleteBlockImage.tracked
      (DeleteBlockImage.lookForTask (imageSpecOf poolName nameSpace imageName)) c.MaxIterations ws ts)
    (hfail : ∀ k, k ≤ c.MaxIterations → (ts k).Success = false)
    (depth : Nat) (hd : c.MaxIterations + 1 < depth) :
    DeleteBlockImage c fuel depth poolName nameSpace imageName 0 (ws 0) =
      some ((0, some .ErrMaxIterationsExceeded), ws (c.MaxIterations + 1)) := by
  obtain ⟨d, rfl⟩ : ∃ d, depth = c.MaxIterations + 1 + (d + 1) :=
    ⟨depth - c.MaxIterations - 2, by omega⟩
  unfold imageSpecOf at hs
  rw [failed_attempts (fun depth counter w => DeleteBlockImage c fuel depth poolName nameSpace imageName counter w)
    c.MaxIterations fuel _ _ _ c.MaxIterations ws ts
    (fun depth counter w w2 t hc ht hw hf =>
      delete_wait_retry c fuel depth poolName nameSpace imageName counter w w2 t hpool himage hc ht hw hf)
    hs (c.MaxIterations + 1) (le_refl _) (le_refl _) hM
    (fun i hi => hfail i (by omega)) (d + 1)]
  exact delete_exceeded c fuel d poolName nameSpace imageName _ _ (by omega)

/-! ## The task identity matcher -/

theorem matchTask_iff (t w : Task) :
    matchTask t w = true ↔
      t.Name = w.Name ∧ t.MetaData.ImageSpec = w.MetaData.ImageSpec ∧
      ptrEq t.MetaData.Namespace w.MetaData.Namespace = true ∧
      t.MetaData.ImageName = w.MetaData.ImageName ∧
      t.MetaData.PoolName = w.MetaData.PoolName := by
  unfold matchTask
  simp [and_assoc]

/-- C3, the code at the failing input: the candidate `nsCandidate` and the target
`nsTarget` agree on `Name`, `PoolName`, `ImageName`, `ImageSpec` and both carry the string
`ns` as namespace, yet `matchTask` answers false, because the two namespaces are pointers
to different variables and `matchTask` compares the pointers. -/
theorem matchTask_rejects_equal_namespace_strings :
    nsCandidate.Name = nsTarget.Name ∧
    nsCandidate.MetaData.PoolName = nsTarget.MetaData.PoolName ∧
    nsCandidate.MetaData.Namespace.map StringPtr.val = some "ns" ∧
    nsTarget.MetaData.Namespace.map StringPtr.val = some "ns" ∧
    nsCandidate.MetaData.ImageName = nsTarget.MetaData.ImageName ∧
    nsCandidate.MetaData.ImageSpec = nsTarget.MetaData.ImageSpec ∧
    matchTask nsCandidate nsTarget = false := by
  decide

/-! ## The completion waiter -/

/-- C4 as the code behaves: when a task matching the target is executing on the first
and the second fetch, no executing task matches on the third fetch, and `f` is the first
matching task of the finished list of the fourth fetch (all four fetches without error),
`WaitForTaskIsDone` makes exactly three fetches in its first loop and one in its second
loop, four in all, and returns `f` with a nil error. -/
theorem waitForTaskIsDone_phase_transition (fuel : Nat) (workTask f : Task) (w : World)
    (h1 : w.errAt w.fetched = none)
    (x1 : taskIsStillExecuting workTask (w.tasksAt w.fetched) = true)
    (h2 : w.errAt (w.fetched + 1) = none)
    (x2 : taskIsStillExecuting workTask (w.tasksAt (w.fetched + 1)) = true)
    (h3 : w.errAt (w.fetched + 2) = none)
    (x3 : taskIsStillExecuting workTask (w.tasksAt (w.fetched + 2)) = false)
    (h4 : w.errAt (w.fetched + 3) = none)
    (x4 : taskIsFinished workTask (w.tasksAt (w.fetched + 3)) = (true, f)) :
    WaitForTaskIsDone.phase1 workTask (fuel + 3) w = some (none, w.afterFetches 3) ∧
    WaitForTaskIsDone.phase2 workTask maxAttempts {} (w.afterFetches 3) =
      ((f, none), (w.afterFetches 3).afterFetches 1) ∧
    WaitForTaskIsDone (fuel + 3) workTask w = some ((f, none), w.afterFetches 4) ∧
    (w.afterFetches 4).fetched = w.fetched + 4 :=
  ⟨(phase_transition fuel workTask f w h1 x1 h2 x2 h3 x3 h4 x4).1,
    (phase_transition fuel workTask f w h1 x1 h2 x2 h3 x3 h4 x4).2.1,
    (phase_transition fuel workTask f w h1 x1 h2 x2 h3 x3 h4 x4).2.2, rfl⟩

/-- Witness of C4 as the code behaves, on `phaseWorld`. -/
theorem waitForTaskIsDone_phase_transition_witness :
    WaitForTaskIsDone.phase1 vol1Task 3 phaseWorld = some (none, phaseWorld.afterFetches 3) ∧
    WaitForTaskIsDone.phase2 vol1Task maxAttempts {} (phaseWorld.afterFetches 3) =
      ((vol1Done, none), (phaseWorld.afterFetches 3).afterFetches 1) ∧
    WaitForTaskIsDone 3 vol1Task phaseWorld = some ((vol1Done, none), phaseWorld.afterFetches 4) ∧
    (phaseWorld.afterFetches 4).fetched = phaseWorld.fetched + 4 :=
  waitForTaskIsDone_phase_transition 0 vol1Task vol1Done phaseWorld
    (by decide) (by decide) (by decide) (by decide) (by decide) (by decide) (by decide)
    (by decide)

/-- C4 as stated fails on `phaseWorld`: the task of `vol1Task` is executing on fetches 1
and 2, from fetch 3 on no executing task matches and the finished list holds the matching
task `vol1Done`, but no run of `WaitForTaskIsDone` returns after three fetches: the first
loop alone makes three. -/
theorem waitForTaskIsDone_three_fetches_refuted :
    taskIsStillExecuting vol1Task (phaseWorld.tasksAt 0) = true ∧
    taskIsStillExecuting vol1Task (phaseWorld.tasksAt 1) = true ∧
    (∀ k, 2 ≤ k → phaseWorld.errAt k = none ∧
      taskIsStillExecuting vol1Task (phaseWorld.tasksAt k) = false ∧
      taskIsFinished vol1Task (phaseWorld.tasksAt k) = (true, vol1Done)) ∧
    (∀ fuel r w1, WaitForTaskIsDone.phase1 vol1Task fuel phaseWorld = some (r, w1) →
      w1.fetched = 3) ∧
    ¬ ∃ fuel w1, WaitForTaskIsDone fuel vol1Task phaseWorld = some ((vol1Done, none), w1) ∧
      w1.fetched = 3 := by
  have hrun := fun fuel => phase_transition fuel vol1Task vol1Done phaseWorld
    (by decide) (by decide) (by decide) (by decide) (by decide) (by decide) (by decide)
    (by decide)
  refine ⟨by decide, by decide, ?_, ?_, ?_⟩
  · intro k hk
    have hk2 : ¬ k < 2 := by omega
    simp [World.errAt, World.tasksAt, World.getTaskAt, GetTask, World.fetch, phaseWorld, hk2,
      Response.IsSuccess, taskIsStillExecuting, taskIsStillExecuting.loop]
    decide
  · intro fuel r w1 h
    rcases Nat.lt_or_ge fuel 3 with hlt | hge
    · interval_cases fuel
      · simp [WaitForTaskIsDone.phase1] at h
      · have h1 : WaitForTaskIsDone.phase1 vol1Task 1 phaseWorld = none := by rfl
        rw [h1] at h
        simp at h
      · have h2 : WaitForTaskIsDone.phase1 vol1Task 2 phaseWorld = none := by rfl
        rw [h2] at h
        simp at h
    · obtain ⟨d, rfl⟩ : ∃ d, fuel = d + 3 := ⟨fuel - 3, by omega⟩
      rw [(hrun d).1] at h
      simp only [Option.some.injEq, Prod.mk.injEq] at h
      rw [← h.2]
      rfl
  · rintro ⟨fuel, w1, h, hf⟩
    rcases Nat.lt_or_ge fuel 3 with hlt | hge
    · interval_cases fuel
      · have h0 : WaitForTaskIsDone 0 vol1Task phaseWorld = none := by rfl
        rw [h0] at h
        simp at h
      · have h1 : WaitForTaskIsDone 1 vol1Task phaseWorld = none := by rfl
        rw [h1] at h
        simp at h
      · have h2 : WaitForTaskIsDone 2 vol1Task phaseWorld = none := by rfl
        rw [h2] at h
        simp at h
    · obtain ⟨d, rfl⟩ : ∃ d, fuel = d + 3 := ⟨fuel - 3, by omega⟩
      rw [(hrun d).2.2] at h
      simp only [Option.some.injEq, Prod.mk.injEq, true_and] at h
      rw [← h] at hf
      revert hf
      decide

/-- C5: when every fetch from the current one on succeeds, no executing task matches on
the first fetch and no fetched finished list holds a matching task, `WaitForTaskIsDone`
leaves its first loop after one fetch, makes exactly `maxAttempts = 600` fetches in its
second loop, and returns the zero-value `Task` (`Success = false`, empty `Name`) with a
nil error. -/
theorem waitForTaskIsDone_bound_exhausted (fuel : Nat) (workTask : Task) (w : World)
    (hok : ∀ k, w.fetched ≤ k → w.errAt k = none)
    (hexec : taskIsStillExecuting workTask (w.tasksAt w.fetched) = false)
    (hfin : ∀ k, w.fetched ≤ k → (taskIsFinished workTask (w.tasksAt k)).1 = false) :
    WaitForTaskIsDone.phase1 workTask (fuel + 1) w = some (none, w.afterFetches 1) ∧
    WaitForTaskIsDone.phase2 workTask maxAttempts {} (w.afterFetches 1) =
      ((({} : Task), none), (w.afterFetches 1).afterFetches 600) ∧
    WaitForTaskIsDone (fuel + 1) workTask w = some ((({} : Task), none), w.afterFetches 601) ∧
    ({} : Task).Success = false ∧ ({} : Task).Name = "" := by
  have p1 := phase1_break workTask fuel w (hok _ (le_refl _)) hexec
  have p2 : WaitForTaskIsDone.phase2 workTask maxAttempts {} (w.afterFetches 1) =
      ((({} : Task), none), (w.afterFetches 1).afterFetches 600) :=
    phase2_exhausted workTask maxAttempts (w.afterFetches 1)
      (fun k hk => hok k (by rw [afterFetches_fetched] at hk; omega))
      (fun k hk => hfin k (by rw [afterFetches_fetched] at hk; omega))
  refine ⟨p1, p2, ?_, rfl, rfl⟩
  unfold WaitForTaskIsDone
  rw [p1]
  dsimp only
  rw [p2]
  rfl

/-- Witness of C5 on `silentWorld`, whose task directory is always empty. -/
theorem waitForTaskIsDone_bound_exhausted_witness :
    WaitForTaskIsDone.phase1 vol1Task 1 silentWorld = some (none, silentWorld.afterFetches 1) ∧
    WaitForTaskIsDone.phase2 vol1Task maxAttempts {} (silentWorld.afterFetches 1) =
      ((({} : Task), none), (silentWorld.afterFetches 1).afterFetches 600) ∧
    WaitForTaskIsDone 1 vol1Task silentWorld =
      some ((({} : Task), none), silentWorld.afterFetches 601) ∧
    ({} : Task).Success = false ∧ ({} : Task).Name = "" :=
  waitForTaskIsDone_bound_exhausted 0 vol1Task silentWorld
    (fun _ _ => rfl) (by decide) (fun _ _ => rfl)

/-- C6: let fetch number `w.fetched + j` be the first fetch of the task directory that
returns an error, `e`.  Then `WaitForTaskIsDone` (with fuel for `j + 1` rounds of its first
loop) returns, never fetches past that fetch, and if it makes that fetch it returns the
zero-value `Task` with `e`.  An orchestrator called with a counter within the budget and
valid names whose request gets a tracked answer either sees its wait end before that
fetch without error, or returns status 0 with `e` in the world reached by one request and
`j + 1` fetches: the request is not sent again. -/
theorem fetch_error_propagates (c : Client) (fuel depth counter : Nat) (w : World) (j : Nat)
    (e : GoError) (hfirst : w.FirstFetchError j e) (hfuel : j < fuel)
    (hc : counter ≤ c.MaxIterations) :
    (∀ workTask, ∃ n r, WaitForTaskIsDone fuel workTask w = some (r, w.afterFetches n) ∧
      ((n = j + 1 ∧ r = (({} : Task), some e)) ∨ (1 ≤ n ∧ n ≤ j ∧ r.2 = none))) ∧
    (∀ rbdCreate, CreateBlockImage.tracked (w.mutating w.sent.length) →
      CreateBlockImage c fuel (depth + 1) rbdCreate counter w =
          some ((0, some e), (w.send (.post rbdCreate)).2.afterFetches (j + 1)) ∨
        ∃ n t, n ≤ j ∧
          WaitForTaskIsDone fuel (CreateBlockImage.lookForTask rbdCreate)
            (w.send (.post rbdCreate)).2 =
            some ((t, none), (w.send (.post rbdCreate)).2.afterFetches n)) ∧
    (∀ poolName nameSpace imageName rbdUpdate, poolName ≠ "" → imageName ≠ "" →
      rbdUpdate.Name ≠ "" → UpdateBlockImage.tracked (w.mutating w.sent.length) →
      UpdateBlockImage c fuel (depth + 1) poolName nameSpace imageName rbdUpdate counter w =
          some ((0, some e),
            (w.send (.put (imageSpecOf poolName nameSpace imageName) rbdUpdate)).2.afterFetches
              (j + 1)) ∨
        ∃ n t, n ≤ j ∧
          WaitForTaskIsDone fuel
            (UpdateBlockImage.lookForTask (imageSpecOf poolName nameSpace imageName))
            (w.send (.put (imageSpecOf poolName nameSpace imageName) rbdUpdate)).2 =
            some ((t, none),
              (w.send (.put (imageSpecOf poolName nameSpace imageName) rbdUpdate)).2.afterFetches
                n)) ∧
    (∀ poolName nameSpace imageName, poolName ≠ "" → imageName ≠ "" →
      DeleteBlockImage.tracked (w.mutating w.sent.length) →
      DeleteBlockImage c fuel (depth + 1) poolName nameSpace imageName counter w =
          some ((0, some e),
            (w.send (.delete (imageSpecOf poolName nameSpace imageName))).2.afterFetches
              (j + 1)) ∨
        ∃ n t, n ≤ j ∧
          WaitForTaskIsDone fuel
            (DeleteBlockImage.lookForTask (imageSpecOf poolName nameSpace imageName))
            (w.send (.delete (imageSpecOf poolName nameSpace imageName))).2 =
            some ((t, none),
              (w.send (.delete (imageSpecOf poolName nameSpace imageName))).2.afterFetches
                n)) := by
  have hsend : ∀ req, (w.send req).2.FirstFetchError j e := by
    intro req
    obtain ⟨hbefore, hat⟩ := hfirst
    constructor
    · intro i hi
      rw [send_errAt, send_fetched]
      exact hbefore i hi
    · rw [send_errAt, send_fetched]
      exact hat
  have hwait : ∀ req workTask,
      WaitForTaskIsDone fuel workTask (w.send req).2 =
          some ((({} : Task), some e), (w.send req).2.afterFetches (j + 1)) ∨
        ∃ n t, n ≤ j ∧ WaitForTaskIsDone fuel workTask (w.send req).2 =
          some ((t, none), (w.send req).2.afterFetches n) := by
    intro req workTask
    obtain ⟨n, r, hrun, hcase⟩ :=
      wait_first_error workTask fuel (w.send req).2 j e (hsend req) hfuel
    rcases hcase with ⟨hn, hr⟩ | ⟨_, hn, hr⟩
    · subst hn hr
      exact Or.inl hrun
    · obtain ⟨t, oe⟩ := r
      dsimp only at hr
      subst hr
      exact Or.inr ⟨n, t, hn, hrun⟩
  refine ⟨fun workTask => wait_first_error workTask fuel w j e hfirst hfuel, ?_, ?_, ?_⟩
  · intro rbdCreate ht
    rcases hwait (.post rbdCreate) (CreateBlockImage.lookForTask rbdCreate) with h | h
    · exact Or.inl (create_wait_error c fuel depth rbdCreate counter w _ _ e hc ht h)
    · exact Or.inr h
  · intro poolName nameSpace imageName rbdUpdate hpool himage hnew ht
    rcases hwait (.put (imageSpecOf poolName nameSpace imageName) rbdUpdate)
      (UpdateBlockImage.lookForTask (imageSpecOf poolName nameSpace imageName)) with h | h
    · exact Or.inl (update_wait_error c fuel depth poolName nameSpace imageName rbdUpdate
        counter w _ _ e hpool himage hnew hc ht h)
    · exact Or.inr h
  · intro poolName nameSpace imageName hpool himage ht
    rcases hwait (.delete (imageSpecOf poolName nameSpace imageName))
      (DeleteBlockImage.lookForTask (imageSpecOf poolName nameSpace imageName)) with h | h
    · exact Or.inl (delete_wait_error c fuel depth poolName nameSpace imageName
        counter w _ _ e hpool himage hc ht h)
    · exact Or.inr h

/-- Witness of C6 on `brokenWorld`, whose third fetch fails: the wait for `vol1Task`
and the creation of `vol1Create`. -/
theorem fetch_error_propagates_witness :
    brokenWorld.FirstFetchError 2 (.library "unexpected end of JSON input") ∧
    (∃ n r, WaitForTaskIsDone 3 vol1Task brokenWorld = some (r, brokenWorld.afterFetches n) ∧
      ((n = 2 + 1 ∧ r = (({} : Task), some (.library "unexpected end of JSON input"))) ∨
        (1 ≤ n ∧ n ≤ 2 ∧ r.2 = none))) ∧
    (CreateBlockImage ⟨30⟩ 3 (0 + 1) vol1Create 0 brokenWorld =
        some ((0, some (.library "unexpected end of JSON input")),
          (brokenWorld.send (.post vol1Create)).2.afterFetches (2 + 1)) ∨
      ∃ n t, n ≤ 2 ∧
        WaitForTaskIsDone 3 (CreateBlockImage.lookForTask vol1Create)
          (brokenWorld.send (.post vol1Create)).2 =
          some ((t, none), (brokenWorld.send (.post vol1Create)).2.afterFetches n)) :=
  have hfirst : brokenWorld.FirstFetchError 2 (.library "unexpected end of JSON input") :=
    ⟨fun i hi => by interval_cases i <;> rfl, rfl⟩
  ⟨hfirst,
    (fetch_error_propagates ⟨30⟩ 3 0 0 brokenWorld 2 _ hfirst (by decide) (by decide)).1 vol1Task,
    (fetch_error_propagates ⟨30⟩ 3 0 0 brokenWorld 2 _ hfirst (by decide) (by decide)).2.1
      vol1Create (by decide)⟩

/-! ## The orchestrators -/

/-- C1: an orchestrator called with counter 0 (update and delete with non-empty names)
whose attempts `0 .. N`, `N ≤ MaxIterations`, each get a tracked answer and a wait that
returns a task without error, failed on the attempts before `N` and successful on attempt
`N`, returns its canonical success status (create 201, update 200, delete 204) with a nil
error in the world left by the last wait, having sent exactly `N + 1` times the same
mutating request. -/
theorem orchestrators_retry_until_success (c : Client) (fuel N : Nat)
    (hN : N ≤ c.MaxIterations) (hM : c.MaxIterations < uintSize)
    (rbdCreate : RBDCreate) (poolName : String) (nameSpace : Option StringPtr)
    (imageName : String) (rbdUpdate : RBDUpdate)
    (hpool : poolName ≠ "") (himage : imageName ≠ "") (hnew : rbdUpdate.Name ≠ "")
    (wsC wsU wsD : Nat → World) (tsC tsU tsD : Nat → Task)
    (hC : AttemptScript fuel (.post rbdCreate) CreateBlockImage.tracked
      (CreateBlockImage.lookForTask rbdCreate) N wsC tsC)
    (hCfail : ∀ k, k < N → (tsC k).Success = false) (hCsucc : (tsC N).Success = true)
    (hU : AttemptScript fuel (.put (imageSpecOf poolName nameSpace imageName) rbdUpdate)
      UpdateBlockImage.tracked
      (UpdateBlockImage.lookForTask (imageSpecOf poolName nameSpace imageName)) N wsU tsU)
    (hUfail : ∀ k, k < N → (tsU k).Success = false) (hUsucc : (tsU N).Success = true)
    (hD : AttemptScript fuel (.delete (imageSpecOf poolName nameSpace imageName))
      DeleteBlockImage.tracked
      (DeleteBlockImage.lookForTask (imageSpecOf poolName nameSpace imageName)) N wsD tsD)
    (hDfail : ∀ k, k < N → (tsD k).Success = false) (hDsucc : (tsD N).Success = true)
    (depth : Nat) (hd : N < depth) :
    (CreateBlockImage c fuel depth rbdCreate 0 (wsC 0) = some ((201, none), wsC (N + 1)) ∧
      (wsC (N + 1)).sent = (wsC 0).sent ++ List.replicate (N + 1) (.post rbdCreate)) ∧
    (UpdateBlockImage c fuel depth poolName nameSpace imageName rbdUpdate 0 (wsU 0) =
        some ((200, none), wsU (N + 1)) ∧
      (wsU (N + 1)).sent = (wsU 0).sent ++
        List.replicate (N + 1) (.put (imageSpecOf poolName nameSpace imageName) rbdUpdate)) ∧
    (DeleteBlockImage c fuel depth poolName nameSpace imageName 0 (wsD 0) =
        some ((204, none), wsD (N + 1)) ∧
      (wsD (N + 1)).sent = (wsD 0).sent ++
        List.replicate (N + 1) (.delete (imageSpecOf poolName nameSpace imageName))) :=
  ⟨⟨create_until_success c fuel N rbdCreate wsC tsC hN hM hC hCfail hCsucc depth hd,
      script_sent fuel _ _ _ N wsC tsC hC (N + 1) (le_refl _)⟩,
    ⟨update_until_success c fuel N poolName nameSpace imageName rbdUpdate wsU tsU
        hpool himage hnew hN hM hU hUfail hUsucc depth hd,
      script_sent fuel _ _ _ N wsU tsU hU (N + 1) (le_refl _)⟩,
    ⟨delete_until_success c fuel N poolName nameSpace imageName wsD tsD
        hpool himage hN hM hD hDfail hDsucc depth hd,
      script_sent fuel _ _ _ N wsD tsD hD (N + 1) (le_refl _)⟩⟩

/-- The end-to-end scenario of the specification on `acceptedWorld`: one request, three
fetches, status 201 and no error. -/
theorem end_to_end_create :
    (CreateBlockImage ⟨30⟩ 2 1 vol1Create 0 acceptedWorld).map
        (fun r => (r.1, r.2.sent, r.2.fetched)) =
      some ((201, none), [.post vol1Create], 3) := by
  decide

/-- Witness of C1 with `N = 1` on `retryWorld`: image `vol1` of pool `rbd`, every request
answered 202, the first task failed and the second successful. -/
theorem orchestrators_retry_until_success_witness :
    (CreateBlockImage ⟨30⟩ 1 2 vol1Create 0 (retryWorldAt vol1Task (.post vol1Create) 1 0) =
        some ((201, none), retryWorldAt vol1Task (.post vol1Create) 1 (1 + 1)) ∧
      (retryWorldAt vol1Task (.post vol1Create) 1 (1 + 1)).sent =
        (retryWorldAt vol1Task (.post vol1Create) 1 0).sent ++
          List.replicate (1 + 1) (.post vol1Create)) ∧
    (UpdateBlockImage ⟨30⟩ 1 2 "rbd" none "vol1" vol1Update 0
        (retryWorldAt vol1Edit (.put (imageSpecOf "rbd" none "vol1") vol1Update) 1 0) =
        some ((200, none),
          retryWorldAt vol1Edit (.put (imageSpecOf "rbd" none "vol1") vol1Update) 1 (1 + 1)) ∧
      (retryWorldAt vol1Edit (.put (imageSpecOf "rbd" none "vol1") vol1Update) 1 (1 + 1)).sent =
        (retryWorldAt vol1Edit (.put (imageSpecOf "rbd" none "vol1") vol1Update) 1 0).sent ++
          List.replicate (1 + 1) (.put (imageSpecOf "rbd" none "vol1") vol1Update)) ∧
    (DeleteBlockImage ⟨30⟩ 1 2 "rbd" none "vol1" 0
        (retryWorldAt vol1Delete (.delete (imageSpecOf "rbd" none "vol1")) 1 0) =
        some ((204, none),
          retryWorldAt vol1Delete (.delete (imageSpecOf "rbd" none "vol1")) 1 (1 + 1)) ∧
      (retryWorldAt vol1Delete (.delete (imageSpecOf "rbd" none "vol1")) 1 (1 + 1)).sent =
        (retryWorldAt vol1Delete (.delete (imageSpecOf "rbd" none "vol1")) 1 0).sent ++
          List.replicate (1 + 1) (.delete (imageSpecOf "rbd" none "vol1"))) :=
  orchestrators_retry_until_success ⟨30⟩ 1 1 (by decide) (by decide)
    vol1Create "rbd" none "vol1" vol1Update (by decide) (by decide) (by decide)
    (retryWorldAt vol1Task (.post vol1Create) 1)
    (retryWorldAt vol1Edit (.put (imageSpecOf "rbd" none "vol1") vol1Update) 1)
    (retryWorldAt vol1Delete (.delete (imageSpecOf "rbd" none "vol1")) 1)
    (retryTaskAt vol1Task 1) (retryTaskAt vol1Edit 1) (retryTaskAt vol1Delete 1)
    (fun k hk => by interval_cases k <;> exact ⟨by decide, rfl⟩)
    (fun k hk => by interval_cases k; rfl) rfl
    (fun k hk => by interval_cases k <;> exact ⟨by decide, rfl⟩)
    (fun k hk => by interval_cases k; rfl) rfl
    (fun k hk => by interval_cases k <;> exact ⟨by decide, rfl⟩)
    (fun k hk => by interval_cases k; rfl) rfl
    2 (by decide)

theorem delete_wait_none (c : Client) (fuel depth : Nat) (poolName : String)
    (nameSpace : Option StringPtr) (imageName : String) (counter : Nat) (w : World)
    (hpool : poolName ≠ "") (himage : imageName ≠ "")
    (hc : counter ≤ c.MaxIterations)
    (ht : DeleteBlockImage.tracked (w.mutating w.sent.length))
    (hw : WaitForTaskIsDone fuel
      (DeleteBlockImage.lookForTask (PathJoin [.str poolName, .ptr nameSpace, .str imageName]))
      (w.send (.delete (PathJoin [.str poolName, .ptr nameSpace, .str imageName]))).2 = none) :
    DeleteBlockImage c fuel (depth + 1) poolName nameSpace imageName counter w = none := by
  obtain ⟨hs, hst⟩ := ht
  rw [DeleteBlockImage, if_neg (Nat.not_lt.mpr hc)]
  simp only [World.send] at hw ⊢
  simp only [hpool, himage, hs, hst, hw]
  simp

theorem failingWorld_wait (fuel : Nat) (s : List Request) (f : Nat) :
    WaitForTaskIsDone (fuel + 1) vol1Delete (failingWorldAt vol1Delete s f) =
      some (({ vol1Delete with Success := false }, none),
        failingWorldAt vol1Delete s (f + 2)) := by
  rfl

theorem failingWorld_delete_never_exceeded (fuel : Nat) :
    ∀ (depth counter : Nat) (s : List Request) (f : Nat) (w1 : World),
      counter < uintSize →
      DeleteBlockImage ⟨uintSize - 1⟩ fuel depth "rbd" none "vol1" counter
        (failingWorldAt vol1Delete s f) ≠
        some ((0, some .ErrMaxIterationsExceeded), w1) := by
  intro depth
  induction depth with
  | zero =>
    intro counter s f w1 _ h
    simp [DeleteBlockImage] at h
  | succ depth ih =>
    intro counter s f w1 hcount
    have hc : counter ≤ (⟨uintSize - 1⟩ : Client).MaxIterations := by
      show counter ≤ uintSize - 1
      omega
    cases fuel with
    | zero =>
      rw [delete_wait_none ⟨uintSize - 1⟩ 0 depth "rbd" none "vol1" counter
        (failingWorldAt vol1Delete s f) (by decide) (by decide) hc ⟨rfl, Or.inl rfl⟩ rfl]
      simp
    | succ fuel =>
      rw [delete_wait_retry ⟨uintSize - 1⟩ (fuel + 1) depth "rbd" none "vol1" counter
        (failingWorldAt vol1Delete s f)
        (failingWorldAt vol1Delete (s ++ [Request.delete "rbd/vol1"]) (f + 2))
        { vol1Delete with Success := false } (by decide) (by decide) hc ⟨rfl, Or.inl rfl⟩
        (failingWorld_wait fuel (s ++ [Request.delete "rbd/vol1"]) f) rfl]
      exact ih _ _ _ w1 (Nat.mod_lt _ uintSize_pos)

/-- C2 as the code behaves: with a ceiling `MaxIterations` below the largest `uint`, an
orchestrator called with counter 0 (update and delete with non-empty names) whose attempts
`0 .. MaxIterations` each get a tracked answer and a wait that returns a failed task
without error returns status 0 with `ErrMaxIterationsExceeded` in the world left by the
last wait, having sent exactly `MaxIterations + 1` times the same mutating request. -/
theorem orchestrators_retry_budget (c : Client) (fuel : Nat)
    (hM : c.MaxIterations + 1 < uintSize)
    (rbdCreate : RBDCreate) (poolName : String) (nameSpace : Option StringPtr)
    (imageName : String) (rbdUpdate : RBDUpdate)
    (hpool : poolName ≠ "") (himage : imageName ≠ "") (hnew : rbdUpdate.Name ≠ "")
    (wsC wsU wsD : Nat → World) (tsC tsU tsD : Nat → Task)
    (hC : AttemptScript fuel (.post rbdCreate) CreateBlockImage.tracked
      (CreateBlockImage.lookForTask rbdCreate) c.MaxIterations wsC tsC)
    (hCfail : ∀ k, k ≤ c.MaxIterations → (tsC k).Success = false)
    (hU : AttemptScript fuel (.put (imageSpecOf poolName nameSpace imageName) rbdUpdate)
      UpdateBlockImage.tracked
      (UpdateBlockImage.lookForTask (imageSpecOf poolName nameSpace imageName))
      c.MaxIterations wsU tsU)
    (hUfail : ∀ k, k ≤ c.MaxIterations → (tsU k).Success = false)
    (hD : AttemptScript fuel (.delete (imageSpecOf poolName nameSpace imageName))
      DeleteBlockImage.tracked
      (DeleteBlockImage.lookForTask (imageSpecOf poolName nameSpace imageName))
      c.MaxIterations wsD tsD)
    (hDfail : ∀ k, k ≤ c.MaxIterations → (tsD k).Success = false)
    (depth : Nat) (hd : c.MaxIterations + 1 < depth) :
    (CreateBlockImage c fuel depth rbdCreate 0 (wsC 0) =
        some ((0, some .ErrMaxIterationsExceeded), wsC (c.MaxIterations + 1)) ∧
      (wsC (c.MaxIterations + 1)).sent =
        (wsC 0).sent ++ List.replicate (c.MaxIterations + 1) (.post rbdCreate)) ∧
    (UpdateBlockImage c fuel depth poolName nameSpace imageName rbdUpdate 0 (wsU 0) =
        some ((0, some .ErrMaxIterationsExceeded), wsU (c.MaxIterations + 1)) ∧
      (wsU (c.MaxIterations + 1)).sent = (wsU 0).sent ++
        List.replicate (c.MaxIterations + 1)
          (.put (imageSpecOf poolName nameSpace imageName) rbdUpdate)) ∧
    (DeleteBlockImage c fuel depth poolName nameSpace imageName 0 (wsD 0) =
        some ((0, some .ErrMaxIterationsExceeded), wsD (c.MaxIterations + 1)) ∧
      (wsD (c.MaxIterations + 1)).sent = (wsD 0).sent ++
        List.replicate (c.MaxIterations + 1)
          (.delete (imageSpecOf poolName nameSpace imageName))) :=
  ⟨⟨create_budget c fuel rbdCreate wsC tsC hM hC hCfail depth hd,
      script_sent fuel _ _ _ _ wsC tsC hC _ (le_refl _)⟩,
    ⟨update_budget c fuel poolName nameSpace imageName rbdUpdate wsU tsU
        hpool himage hnew hM hU hUfail depth hd,
      script_sent fuel _ _ _ _ wsU tsU hU _ (le_refl _)⟩,
    ⟨delete_budget c fuel poolName nameSpace imageName wsD tsD
        hpool himage hM hD hDfail depth hd,
      script_sent fuel _ _ _ _ wsD tsD hD _ (le_refl _)⟩⟩

/-- Witness of C2 as the code behaves, with `MaxIterations = 3` on `failingWorld`: four
requests (counters 0 to 3), then `ErrMaxIterationsExceeded`. -/
theorem orchestrators_retry_budget_witness :
    (CreateBlockImage ⟨3⟩ 1 5 vol1Create 0
        (failingWorldAt vol1Task (List.replicate 0 (.post vol1Create)) (2 * 0)) =
        some ((0, some .ErrMaxIterationsExceeded),
          failingWorldAt vol1Task (List.replicate (3 + 1) (.post vol1Create)) (2 * (3 + 1))) ∧
      (failingWorldAt vol1Task (List.replicate (3 + 1) (.post vol1Create)) (2 * (3 + 1))).sent =
        (failingWorldAt vol1Task (List.replicate 0 (.post vol1Create)) (2 * 0)).sent ++
          List.replicate (3 + 1) (.post vol1Create)) ∧
    (UpdateBlockImage ⟨3⟩ 1 5 "rbd" none "vol1" vol1Update 0
        (failingWorldAt vol1Edit
          (List.replicate 0 (.put (imageSpecOf "rbd" none "vol1") vol1Update)) (2 * 0)) =
        some ((0, some .ErrMaxIterationsExceeded),
          failingWorldAt vol1Edit
            (List.replicate (3 + 1) (.put (imageSpecOf "rbd" none "vol1") vol1Update))
            (2 * (3 + 1))) ∧
      (failingWorldAt vol1Edit
          (List.replicate (3 + 1) (.put (imageSpecOf "rbd" none "vol1") vol1Update))
          (2 * (3 + 1))).sent =
        (failingWorldAt vol1Edit
          (List.replicate 0 (.put (imageSpecOf "rbd" none "vol1") vol1Update)) (2 * 0)).sent ++
          List.replicate (3 + 1) (.put (imageSpecOf "rbd" none "vol1") vol1Update)) ∧
    (DeleteBlockImage ⟨3⟩ 1 5 "rbd" none "vol1" 0
        (failingWorldAt vol1Delete
          (List.replicate 0 (.delete (imageSpecOf "rbd" none "vol1"))) (2 * 0)) =
        some ((0, some .ErrMaxIterationsExceeded),
          failingWorldAt vol1Delete
            (List.replicate (3 + 1) (.delete (imageSpecOf "rbd" none "vol1"))) (2 * (3 + 1))) ∧
      (failingWorldAt vol1Delete
          (List.replicate (3 + 1) (.delete (imageSpecOf "rbd" none "vol1"))) (2 * (3 + 1))).sent =
        (failingWorldAt vol1Delete
          (List.replicate 0 (.delete (imageSpecOf "rbd" none "vol1"))) (2 * 0)).sent ++
          List.replicate (3 + 1) (.delete (imageSpecOf "rbd" none "vol1"))) :=
  orchestrators_retry_budget ⟨3⟩ 1 (by decide)
    vol1Create "rbd" none "vol1" vol1Update (by decide) (by decide) (by decide)
    (fun k => failingWorldAt vol1Task (List.replicate k (.post vol1Create)) (2 * k))
    (fun k => failingWorldAt vol1Edit
      (List.replicate k (.put (imageSpecOf "rbd" none "vol1") vol1Update)) (2 * k))
    (fun k => failingWorldAt vol1Delete
      (List.replicate k (.delete (imageSpecOf "rbd" none "vol1"))) (2 * k))
    (fun _ => { vol1Task with Success := false })
    (fun _ => { vol1Edit with Success := false })
    (fun _ => { vol1Delete with Success := false })
    (fun k hk => by interval_cases k <;> exact ⟨by decide, rfl⟩)
    (fun _ _ => rfl)
    (fun k hk => by interval_cases k <;> exact ⟨by decide, rfl⟩)
    (fun _ _ => rfl)
    (fun k hk => by interval_cases k <;> exact ⟨by decide, rfl⟩)
    (fun _ _ => rfl)
    5 (by decide)

/-- C2 as stated fails for the ceiling `MaxIterations = 2 ^ 64 - 1`, the largest `uint`:
on `failingWorld`, where every request is answered 202 and every wait for the deletion of
`rbd/vol1` returns the failed finished task, no run of `DeleteBlockImage` started with
counter 0 ever returns `ErrMaxIterationsExceeded`, because no counter exceeds the
ceiling. -/
theorem retry_budget_unreachable_at_max_uint :
    (∀ k, DeleteBlockImage.tracked ((failingWorld vol1Delete).mutating k)) ∧
    (∀ fuel s f, WaitForTaskIsDone (fuel + 1) vol1Delete (failingWorldAt vol1Delete s f) =
      some (({ vol1Delete with Success := false }, none),
        failingWorldAt vol1Delete s (f + 2))) ∧
    ¬ ∃ depth fuel w1,
      DeleteBlockImage ⟨uintSize - 1⟩ fuel depth "rbd" none "vol1" 0
        (failingWorld vol1Delete) = some ((0, some .ErrMaxIterationsExceeded), w1) := by
  refine ⟨fun _ => ⟨rfl, Or.inl rfl⟩, failingWorld_wait, ?_⟩
  rintro ⟨depth, fuel, w1, h⟩
  exact failingWorld_delete_never_exceeded fuel depth 0 [] 0 w1 uintSize_pos h

/-- C7: when the counter is within the budget and the POST is answered, without library
error, by status 400 with a body that decodes to an exception of code 17,
`CreateBlockImage` returns status 400 with an already-exists error in the world reached
by that one request: one mutating request sent, no fetch of the task directory made, and
the retry condition of the HTTP library does not ask to repeat a request answered 400. -/
theorem create_already_exists_short_circuit (c : Client) (fuel depth : Nat)
    (rbdCreate : RBDCreate) (counter : Nat) (w : World) (ex : Exception)
    (hc : counter ≤ c.MaxIterations)
    (herr : (w.mutating w.sent.length).err = none)
    (hstatus : (w.mutating w.sent.length).StatusCode = 400)
    (hex : (w.mutating w.sent.length).exception = some ex)
    (hcode : ex.Code = "17") :
    ∃ e, e.IsAlreadyExists = true ∧
      CreateBlockImage c fuel (depth + 1) rbdCreate counter w =
        some ((400, some e), (w.send (.post rbdCreate)).2) ∧
      (w.send (.post rbdCreate)).2.sent = w.sent ++ [.post rbdCreate] ∧
      (w.send (.post rbdCreate)).2.fetched = w.fetched ∧
      retryConditionCheckForAccepted 400 = false := by
  refine ⟨.ErrEditImageAlreadyExists, rfl, ?_, rfl, rfl, by decide⟩
  rw [CreateBlockImage, if_neg (Nat.not_lt.mpr hc)]
  simp [World.send, Response.IsSuccess, herr, hstatus, hex, hcode, StatusBadRequest,
    RBDImageAlreadyExists]

/-- Witness of C7 on `conflictWorld`. -/
theorem create_already_exists_short_circuit_witness :
    ∃ e, e.IsAlreadyExists = true ∧
      CreateBlockImage ⟨30⟩ 1 (0 + 1) vol1Create 0 conflictWorld =
        some ((400, some e), (conflictWorld.send (.post vol1Create)).2) ∧
      (conflictWorld.send (.post vol1Create)).2.sent = conflictWorld.sent ++ [.post vol1Create] ∧
      (conflictWorld.send (.post vol1Create)).2.fetched = conflictWorld.fetched ∧
      retryConditionCheckForAccepted 400 = false :=
  create_already_exists_short_circuit ⟨30⟩ 1 0 vol1Create 0 conflictWorld
    { Code := "17", Status := 400, Component := "rbd",
      Detail := "[errno 17] RBD image already exists" }
    (by decide) rfl rfl rfl rfl

/-- C8, the code at the failing input: on `conflictWorld` (status 400, exception code
17) `CreateBlockImage` returns `ErrEditImageAlreadyExists`, the error documented for a
renaming, and `UpdateBlockImage` returns `ErrCreateImageAlreadyExists`, the error
documented for a creation. -/
theorem already_exists_errors_swapped :
    (CreateBlockImage ⟨30⟩ 1 1 vol1Create 0 conflictWorld).map Prod.fst =
      some (400, some .ErrEditImageAlreadyExists) ∧
    (UpdateBlockImage ⟨30⟩ 1 1 "rbd" none "vol1" vol1Rename 0 conflictWorld).map Prod.fst =
      some (400, some .ErrCreateImageAlreadyExists) ∧
    GoError.ErrEditImageAlreadyExists.Error =
      "RBD image already exists (error renaming image)" ∧
    GoError.ErrCreateImageAlreadyExists.Error =
      "RBD image already exists (error creating image)" := by
  decide

/-- C9, the code at the failing input: on `badRequestWorld` (status 400, exception code
2) `UpdateBlockImage` and `DeleteBlockImage` return status 400 with the error built from
the raw response after one request and no fetch of the task directory, although the
status 400 is in the `case` list of their `switch` and the task directory lists the
matching task as finished with success. -/
theorem bad_request_returns_before_tracking :
    (UpdateBlockImage ⟨30⟩ 1 1 "rbd" none "vol1" vol1Update 0 badRequestWorld).map
        (fun r => (r.1, r.2.sent.length, r.2.fetched)) =
      some ((400, some (.rawResponse "400 Bad Request")), 1, 0) ∧
    (DeleteBlockImage ⟨30⟩ 1 1 "rbd" none "vol1" 0 badRequestWorld).map
        (fun r => (r.1, r.2.sent.length, r.2.fetched)) =
      some ((400, some (.rawResponse "400 Bad Request")), 1, 0) ∧
    (WaitForTaskIsDone 1 (UpdateBlockImage.lookForTask (imageSpecOf "rbd" none "vol1"))
        (badRequestWorld.send (.put (imageSpecOf "rbd" none "vol1") vol1Update)).2).map
        (fun r => (r.1.1.Success, r.1.2)) = some (true, none) ∧
    (WaitForTaskIsDone 1 (DeleteBlockImage.lookForTask (imageSpecOf "rbd" none "vol1"))
        (badRequestWorld.send (.delete (imageSpecOf "rbd" none "vol1"))).2).map
        (fun r => (r.1.1.Success, r.1.2)) = some (true, none) := by
  decide

/-- C10: with a counter within the budget, `UpdateBlockImage` and `DeleteBlockImage`
return status 0 with `ErrPoolNameIsEmpty` when `poolName` is empty, and otherwise status 0
with `ErrImageNameIsEmpty` when `imageName` is empty (for the update also when
`rbdUpdate.Name` is empty); the world returned is the world of the call, so that no
request was sent and no fetch made. -/
theorem update_delete_guards (c : Client) (fuel depth counter : Nat) (w : World)
    (poolName : String) (nameSpace : Option StringPtr) (imageName : String)
    (rbdUpdate : RBDUpdate) (hc : counter ≤ c.MaxIterations) :
    (poolName = "" →
      UpdateBlockImage c fuel (depth + 1) poolName nameSpace imageName rbdUpdate counter w =
        some ((0, some .ErrPoolNameIsEmpty), w)) ∧
    (poolName ≠ "" → imageName = "" ∨ rbdUpdate.Name = "" →
      UpdateBlockImage c fuel (depth + 1) poolName nameSpace imageName rbdUpdate counter w =
        some ((0, some .ErrImageNameIsEmpty), w)) ∧
    (poolName = "" →
      DeleteBlockImage c fuel (depth + 1) poolName nameSpace imageName counter w =
        some ((0, some .ErrPoolNameIsEmpty), w)) ∧
    (poolName ≠ "" → imageName = "" →
      DeleteBlockImage c fuel (depth + 1) poolName nameSpace imageName counter w =
        some ((0, some .ErrImageNameIsEmpty), w)) := by
  refine ⟨?_, ?_, ?_, ?_⟩
  · intro hp
    rw [UpdateBlockImage, if_neg (Nat.not_lt.mpr hc)]
    simp [hp]
  · intro hp hi
    rw [UpdateBlockImage, if_neg (Nat.not_lt.mpr hc)]
    rcases hi with hi | hi
    · simp [hp, hi]
    · by_cases him : imageName = ""
      · simp [hp, him]
      · simp [hp, him, hi]
  · intro hp
    rw [DeleteBlockImage, if_neg (Nat.not_lt.mpr hc)]
    simp [hp]
  · intro hp hi
    rw [DeleteBlockImage, if_neg (Nat.not_lt.mpr hc)]
    simp [hp, hi]

/-- Witness of C10 on `silentWorld`: empty pool name, empty image name and empty new
name. -/
theorem update_delete_guards_witness :
    UpdateBlockImage ⟨30⟩ 1 (0 + 1) "" none "vol1" vol1Update 0 silentWorld =
      some ((0, some .ErrPoolNameIsEmpty), silentWorld) ∧
    UpdateBlockImage ⟨30⟩ 1 (0 + 1) "rbd" none "vol1" {} 0 silentWorld =
      some ((0, some .ErrImageNameIsEmpty), silentWorld) ∧
    DeleteBlockImage ⟨30⟩ 1 (0 + 1) "" none "vol1" 0 silentWorld =
      some ((0, some .ErrPoolNameIsEmpty), silentWorld) ∧
    DeleteBlockImage ⟨30⟩ 1 (0 + 1) "rbd" none "" 0 silentWorld =
      some ((0, some .ErrImageNameIsEmpty), silentWorld) :=
  ⟨(update_delete_guards ⟨30⟩ 1 0 0 silentWorld "" none "vol1" vol1Update (by decide)).1 rfl,
    (update_delete_guards ⟨30⟩ 1 0 0 silentWorld "rbd" none "vol1" {} (by decide)).2.1
      (by decide) (Or.inr rfl),
    (update_delete_guards ⟨30⟩ 1 0 0 silentWorld "" none "vol1" vol1Update (by decide)).2.2.1 rfl,
    (update_delete_guards ⟨30⟩ 1 0 0 silentWorld "rbd" none "" vol1Update (by decide)).2.2.2
      (by decide) rfl⟩

/-- C11, the code at the failing inputs: `CreateBlockImage` has no guard on the names.
With an empty `PoolName`, and with an empty `Name`, it sends the POST; on
`badRequestWorld` it returns status 400 with the error built from the answer of the
server, not a validation error, and on a server that accepts the request and reports the
task as finished with success it returns 201 and no error. -/
theorem create_sends_request_with_empty_names :
    (CreateBlockImage ⟨30⟩ 1 1 emptyPoolCreate 0 badRequestWorld).map
        (fun r => (r.1, r.2.sent)) =
      some ((400, some (.couldNotCreateImage "vol1" "" "")), [.post emptyPoolCreate]) ∧
    (CreateBlockImage ⟨30⟩ 1 1 emptyNameCreate 0 badRequestWorld).map
        (fun r => (r.1, r.2.sent)) =
      some ((400, some (.couldNotCreateImage "" "rbd" "")), [.post emptyNameCreate]) ∧
    (CreateBlockImage ⟨30⟩ 1 1 emptyPoolCreate 0
        (retryWorld (CreateBlockImage.lookForTask emptyPoolCreate) 0)).map
        (fun r => (r.1, r.2.sent)) =
      some ((201, none), [.post emptyPoolCreate]) ∧
    (CreateBlockImage ⟨30⟩ 1 1 emptyNameCreate 0
        (retryWorld (CreateBlockImage.lookForTask emptyNameCreate) 0)).map
        (fun r => (r.1, r.2.sent)) =
      some ((201, none), [.post emptyNameCreate]) := by
  decide

/-! ## The task directory reader and the retry condition -/

theorem getTask_not_success (w : World) (h : (w.taskDir w.fetched).IsSuccess = false) :
    (GetTask w).1 =
      ((w.taskDir w.fetched).StatusCode, {}, some (.rawResponse (w.taskDir w.fetched).raw)) := by
  unfold GetTask World.fetch
  simp [h]

/-- C12, the code at the failing input: on `refusedWorld`, where the request fails with a
transport error and there is no raw response, `GetTask` returns status 0 with a new
error made from the text of the absent raw response, not the transport error; so does
`WaitForTaskIsDone`. -/
theorem getTask_replaces_transport_error :
    refusedResponse.err =
      some (.library "dial tcp 127.0.0.1:8443: connect: connection refused") ∧
    (GetTask refusedWorld).1 = (0, {}, some (.rawResponse "<nil>")) ∧
    (GetTask refusedWorld).1.2.2 ≠ refusedResponse.err ∧
    (WaitForTaskIsDone 1 vol1Task refusedWorld).map Prod.fst =
      some ({}, some (.rawResponse "<nil>")) := by
  decide

/-- C14: `retryConditionCheckForAccepted` asks for a retry exactly for the status codes
other than 200, 201, 202, 204, 400 and 404; in particular not for 400 and 404. -/
theorem retryConditionCheckForAccepted_iff (s : Nat) :
    (retryConditionCheckForAccepted s = true ↔
      s ≠ 200 ∧ s ≠ 201 ∧ s ≠ 202 ∧ s ≠ 204 ∧ s ≠ 400 ∧ s ≠ 404) ∧
    retryConditionCheckForAccepted 400 = false ∧
    retryConditionCheckForAccepted 404 = false := by
  refine ⟨?_, by decide, by decide⟩
  unfold retryConditionCheckForAccepted StatusOK StatusNoContent StatusNotFound StatusCreated
    StatusAccepted StatusBadRequest
  constructor
  · intro h
    by_contra hne
    have : s = 200 ∨ s = 204 ∨ s = 404 ∨ s = 201 ∨ s = 202 ∨ s = 400 := by omega
    rw [if_pos this] at h
    exact Bool.false_ne_true h
  · intro h
    have : ¬ (s = 200 ∨ s = 204 ∨ s = 404 ∨ s = 201 ∨ s = 202 ∨ s = 400) := by omega
    rw [if_neg this]

/-! ## Order of the tasks in the directory -/

theorem stillExecuting_loop_iff (task : Task) (l : List Task) :
    taskIsStillExecuting.loop task l = true ↔ ∃ a, a ∈ l ∧ matchTask a task = true := by
  induction l with
  | nil => simp [taskIsStillExecuting.loop]
  | cons et rest ih =>
    unfold taskIsStillExecuting.loop
    by_cases hm : matchTask et task = true
    · simp [hm]
    · simp only [hm, List.mem_cons]
      rw [if_neg (by simp), ih]
      constructor
      · rintro ⟨a, ha, hma⟩
        exact ⟨a, Or.inr ha, hma⟩
      · rintro ⟨a, ha | ha, hma⟩
        · subst ha; exact absurd hma hm
        · exact ⟨a, ha, hma⟩

theorem isFinished_loop_iff (task : Task) (l : List Task) :
    (taskIsFinished.loop task l).1 = true ↔ ∃ a, a ∈ l ∧ matchTask a task = true := by
  induction l with
  | nil => simp [taskIsFinished.loop]
  | cons ft rest ih =>
    unfold taskIsFinished.loop
    by_cases hm : matchTask ft task = true
    · simp [hm]
    · simp only [hm, List.mem_cons]
      rw [if_neg (by simp), ih]
      constructor
      · rintro ⟨a, ha, hma⟩
        exact ⟨a, Or.inr ha, hma⟩
      · rintro ⟨a, ha | ha, hma⟩
        · subst ha; exact absurd hma hm
        · exact ⟨a, ha, hma⟩

theorem isFinished_loop_found (task : Task) (l : List Task)
    (h : (taskIsFinished.loop task l).1 = true) :
    (taskIsFinished.loop task l).2 ∈ l ∧ matchTask (taskIsFinished.loop task l).2 task = true := by
  induction l with
  | nil => simp [taskIsFinished.loop] at h
  | cons ft rest ih =>
    unfold taskIsFinished.loop at h ⊢
    by_cases hm : matchTask ft task = true
    · simp [hm]
    · simp only [hm] at h ⊢
      rw [if_neg (by simp)] at h ⊢
      obtain ⟨h1, h2⟩ := ih h
      exact ⟨List.mem_cons_of_mem _ h1, h2⟩

theorem stillExecuting_loop_perm (task : Task) (l1 l2 : List Task) (hp : l1.Perm l2) :
    taskIsStillExecuting.loop task l1 = taskIsStillExecuting.loop task l2 := by
  rw [Bool.eq_iff_iff, stillExecuting_loop_iff, stillExecuting_loop_iff]
  constructor
  · rintro ⟨a, ha, hma⟩
    exact ⟨a, hp.mem_iff.mp ha, hma⟩
  · rintro ⟨a, ha, hma⟩
    exact ⟨a, hp.mem_iff.mpr ha, hma⟩

theorem isFinished_loop_fst_perm (task : Task) (l1 l2 : List Task) (hp : l1.Perm l2) :
    (taskIsFinished.loop task l1).1 = (taskIsFinished.loop task l2).1 := by
  rw [Bool.eq_iff_iff, isFinished_loop_iff, isFinished_loop_iff]
  constructor
  · rintro ⟨a, ha, hma⟩
    exact ⟨a, hp.mem_iff.mp ha, hma⟩
  · rintro ⟨a, ha, hma⟩
    exact ⟨a, hp.mem_iff.mpr ha, hma⟩

theorem isFinished_loop_perm (task : Task) (l1 l2 : List Task) (hp : l1.Perm l2)
    (hu : MatchesAgree task l1) :
    taskIsFinished.loop task l1 = taskIsFinished.loop task l2 := by
  have hfst := isFinished_loop_fst_perm task l1 l2 hp
  cases h1 : (taskIsFinished.loop task l1).1 with
  | true =>
    have h2 : (taskIsFinished.loop task l2).1 = true := by rw [← hfst, h1]
    obtain ⟨m1, t1⟩ := isFinished_loop_found task l1 h1
    obtain ⟨m2, t2⟩ := isFinished_loop_found task l2 h2
    have hsnd := hu _ m1 _ (hp.mem_iff.mpr m2) t1 t2
    exact Prod.ext hfst hsnd
  | false =>
    have h2 : (taskIsFinished.loop task l2).1 = false := by rw [← hfst, h1]
    rw [taskIsFinished_loop_none task l1 h1, taskIsFinished_loop_none task l2 h2]

theorem sameUpToOrder_afterFetches (w1 w2 : World) (n : Nat) (h : w1.SameUpToOrder w2) :
    (w1.afterFetches n).SameUpToOrder (w2.afterFetches n) := by
  obtain ⟨hf, hk⟩ := h
  refine ⟨?_, ?_⟩
  · rw [afterFetches_fetched, afterFetches_fetched, hf]
  · intro k
    rw [afterFetches_errAt, afterFetches_errAt, afterFetches_tasksAt, afterFetches_tasksAt]
    exact hk k

theorem phase1_perm (workTask : Task) :
    ∀ (fuel : Nat) (w1 w2 : World), w1.SameUpToOrder w2 →
      (WaitForTaskIsDone.phase1 workTask fuel w1 = none ∧
        WaitForTaskIsDone.phase1 workTask fuel w2 = none) ∨
      ∃ r n, WaitForTaskIsDone.phase1 workTask fuel w1 = some (r, w1.afterFetches n) ∧
        WaitForTaskIsDone.phase1 workTask fuel w2 = some (r, w2.afterFetches n) := by
  intro fuel
  induction fuel with
  | zero => intro w1 w2 _; exact Or.inl ⟨rfl, rfl⟩
  | succ fuel ih =>
    intro w1 w2 hsame
    obtain ⟨hf, hk⟩ := hsame
    obtain ⟨herr, hexe, _⟩ := hk w1.fetched
    have herr2 : w2.errAt w2.fetched = w1.errAt w1.fetched := by rw [← hf, herr]
    have hexe2 : taskIsStillExecuting workTask (w2.tasksAt w2.fetched) =
        taskIsStillExecuting workTask (w1.tasksAt w1.fetched) := by
      rw [← hf]
      exact (stillExecuting_loop_perm workTask _ _ hexe).symm
    rcases he : w1.errAt w1.fetched with _ | e
    · rw [he] at herr2
      by_cases hx : taskIsStillExecuting workTask (w1.tasksAt w1.fetched) = true
      · rw [hx] at hexe2
        rw [phase1_continue workTask fuel w1 he hx, phase1_continue workTask fuel w2 herr2 hexe2]
        rcases ih _ _ (sameUpToOrder_afterFetches w1 w2 1 ⟨hf, hk⟩) with h | ⟨r, n, h1, h2⟩
        · exact Or.inl h
        · refine Or.inr ⟨r, 1 + n, ?_, ?_⟩
          · rw [h1, afterFetches_add]
          · rw [h2, afterFetches_add]
      · have hx1 : taskIsStillExecuting workTask (w1.tasksAt w1.fetched) = false := by
          simpa using hx
        rw [hx1] at hexe2
        exact Or.inr ⟨none, 1, phase1_break workTask fuel w1 he hx1,
          phase1_break workTask fuel w2 herr2 hexe2⟩
    · rw [he] at herr2
      exact Or.inr ⟨some e, 1, phase1_err workTask fuel w1 e he,
        phase1_err workTask fuel w2 e herr2⟩

theorem phase2_perm (workTask : Task) :
    ∀ (left : Nat) (ft : Task) (w1 w2 : World), w1.SameUpToOrder w2 →
      (∀ k, MatchesAgree workTask (w1.tasksAt k).FinishedTasks) →
      ∃ r n, WaitForTaskIsDone.phase2 workTask left ft w1 = (r, w1.afterFetches n) ∧
        WaitForTaskIsDone.phase2 workTask left ft w2 = (r, w2.afterFetches n) := by
  intro left
  induction left with
  | zero => intro ft w1 w2 _ _; exact ⟨(ft, none), 0, rfl, rfl⟩
  | succ left ih =>
    intro ft w1 w2 hsame hagree
    obtain ⟨hf, hk⟩ := hsame
    obtain ⟨herr, _, hfin⟩ := hk w1.fetched
    have herr2 : w2.errAt w2.fetched = w1.errAt w1.fetched := by rw [← hf, herr]
    have hfin2 : taskIsFinished workTask (w2.tasksAt w2.fetched) =
        taskIsFinished workTask (w1.tasksAt w1.fetched) := by
      rw [← hf]
      exact (isFinished_loop_perm workTask _ _ hfin (hagree w1.fetched)).symm
    rcases he : w1.errAt w1.fetched with _ | e
    · rw [he] at herr2
      rcases hq : taskIsFinished workTask (w1.tasksAt w1.fetched) with ⟨b, ft2⟩
      rw [hq] at hfin2
      cases b with
      | true =>
        exact ⟨(ft2, none), 1, phase2_found workTask ft ft2 left w1 he hq,
          phase2_found workTask ft ft2 left w2 herr2 hfin2⟩
      | false =>
        rw [phase2_continue workTask ft ft2 left w1 he hq,
          phase2_continue workTask ft ft2 left w2 herr2 hfin2]
        obtain ⟨r, n, h1, h2⟩ := ih ft2 _ _ (sameUpToOrder_afterFetches w1 w2 1 ⟨hf, hk⟩)
          (fun k => by rw [afterFetches_tasksAt]; exact hagree k)
        refine ⟨r, 1 + n, ?_, ?_⟩
        · rw [h1, afterFetches_add]
        · rw [h2, afterFetches_add]
    · rw [he] at herr2
      exact ⟨(ft, some e), 1, phase2_err workTask ft left w1 e he,
        phase2_err workTask ft left w2 e herr2⟩

theorem wait_perm (workTask : Task) (fuel : Nat) (w1 w2 : World) (hsame : w1.SameUpToOrder w2)
    (hagree : ∀ k, MatchesAgree workTask (w1.tasksAt k).FinishedTasks) :
    (WaitForTaskIsDone fuel workTask w1 = none ∧ WaitForTaskIsDone fuel workTask w2 = none) ∨
    ∃ r n, WaitForTaskIsDone fuel workTask w1 = some (r, w1.afterFetches n) ∧
      WaitForTaskIsDone fuel workTask w2 = some (r, w2.afterFetches n) := by
  unfold WaitForTaskIsDone
  rcases phase1_perm workTask fuel w1 w2 hsame with ⟨h1, h2⟩ | ⟨r, n, h1, h2⟩
  · rw [h1, h2]
    exact Or.inl ⟨rfl, rfl⟩
  · rw [h1, h2]
    cases r with
    | some e => exact Or.inr ⟨(({} : Task), some e), n, rfl, rfl⟩
    | none =>
      dsimp only
      obtain ⟨r2, n2, h3, h4⟩ := phase2_perm workTask maxAttempts {} _ _
        (sameUpToOrder_afterFetches w1 w2 n hsame)
        (fun k => by rw [afterFetches_tasksAt]; exact hagree k)
      refine Or.inr ⟨r2, n + n2, ?_, ?_⟩
      · rw [h3, afterFetches_add]
      · rw [h4, afterFetches_add]

/-- C13 as the code behaves: permuting the executing and the finished list of a task
directory leaves the answer of `taskIsStillExecuting` and the boolean of `taskIsFinished`
unchanged; the finished task returned, which is the first match in list order, is
unchanged when all the matching tasks of the finished list are the same task; and two
worlds whose directories agree up to the order of the lists, with matching finished tasks
that agree on every fetch, give `WaitForTaskIsDone` the same result after the same number
of fetches. -/
theorem task_order_independence (target : Task) (d1 d2 : Tasks)
    (hexec : d1.ExecutingTasks.Perm d2.ExecutingTasks)
    (hfin : d1.FinishedTasks.Perm d2.FinishedTasks) :
    taskIsStillExecuting target d1 = taskIsStillExecuting target d2 ∧
    (taskIsFinished target d1).1 = (taskIsFinished target d2).1 ∧
    (MatchesAgree target d1.FinishedTasks →
      taskIsFinished target d1 = taskIsFinished target d2) ∧
    (∀ fuel w1 w2, World.SameUpToOrder w1 w2 →
      (∀ k, MatchesAgree target (w1.tasksAt k).FinishedTasks) →
      (WaitForTaskIsDone fuel target w1).map (fun r => (r.1, r.2.fetched)) =
        (WaitForTaskIsDone fuel target w2).map (fun r => (r.1, r.2.fetched))) := by
  refine ⟨stillExecuting_loop_perm target _ _ hexec, isFinished_loop_fst_perm target _ _ hfin,
    fun hu => isFinished_loop_perm target _ _ hfin hu, ?_⟩
  intro fuel w1 w2 hsame hagree
  rcases wait_perm target fuel w1 w2 hsame hagree with ⟨h1, h2⟩ | ⟨r, n, h1, h2⟩
  · rw [h1, h2]
  · rw [h1, h2]
    simp only [Option.map_some', afterFetches_fetched, hsame.1]

/-- Witness of C13 as the code behaves, on `mixedDirectory` and its reordering. -/
theorem task_order_independence_witness :
    taskIsStillExecuting vol1Task mixedDirectory =
      taskIsStillExecuting vol1Task mixedDirectorySwapped ∧
    (taskIsFinished vol1Task mixedDirectory).1 =
      (taskIsFinished vol1Task mixedDirectorySwapped).1 ∧
    taskIsFinished vol1Task mixedDirectory = taskIsFinished vol1Task mixedDirectorySwapped ∧
    (WaitForTaskIsDone 1 vol1Task (constantWorld mixedDirectory)).map
        (fun r => (r.1, r.2.fetched)) =
      (WaitForTaskIsDone 1 vol1Task (constantWorld mixedDirectorySwapped)).map
        (fun r => (r.1, r.2.fetched)) :=
  have hagree : MatchesAgree vol1Task mixedDirectory.FinishedTasks := by
    intro a ha b hb hma hmb
    simp only [mixedDirectory, List.mem_cons, List.mem_singleton, List.not_mem_nil,
      or_false] at ha hb
    rcases ha with rfl | rfl <;> rcases hb with rfl | rfl
    · rfl
    · exact absurd hmb (by decide)
    · exact absurd hma (by decide)
    · rfl
  have h := task_order_independence vol1Task mixedDirectory mixedDirectorySwapped
    (List.Perm.swap _ _ _) (List.Perm.swap _ _ _)
  ⟨h.1, h.2.1, h.2.2.1 hagree,
    h.2.2.2 1 (constantWorld mixedDirectory) (constantWorld mixedDirectorySwapped)
      ⟨rfl, fun _ => ⟨rfl, List.Perm.swap _ _ _, List.Perm.swap _ _ _⟩⟩ (fun _ => hagree)⟩

/-- C13 as stated fails on `doneFirst` and `failedFirst`, two task directories that
differ only in the order of their two finished tasks, both matching `vol1Task`:
`taskIsFinished` returns the successful task for the one and the failed task for the
other, and so does `WaitForTaskIsDone`. -/
theorem finished_task_depends_on_order :
    doneFirst.ExecutingTasks.Perm failedFirst.ExecutingTasks ∧
    doneFirst.FinishedTasks.Perm failedFirst.FinishedTasks ∧
    taskIsFinished vol1Task doneFirst = (true, vol1Done) ∧
    taskIsFinished vol1Task failedFirst = (true, vol1Failed) ∧
    taskIsFinished vol1Task doneFirst ≠ taskIsFinished vol1Task failedFirst ∧
    (WaitForTaskIsDone 1 vol1Task (constantWorld doneFirst)).map Prod.fst =
      some (vol1Done, none) ∧
    (WaitForTaskIsDone 1 vol1Task (constantWorld failedFirst)).map Prod.fst =
      some (vol1Failed, none) :=
  ⟨List.Perm.refl _, List.Perm.swap _ _ _, by decide, by decide, by decide, by decide,
    by decide⟩

/-! ## `PathJoin` -/

theorem intercalate_go_data (sep : String) :
    ∀ (l : List String) (acc : String),
      (String.intercalate.go acc sep l).data =
        acc.data ++ (l.map (fun x => sep.data ++ x.data)).flatten := by
  intro l
  induction l with
  | nil => intro acc; simp [String.intercalate.go]
  | cons a rest ih =>
    intro acc
    rw [String.intercalate.go, ih]
    simp [String.data_append, List.append_assoc]

theorem slashTail_eq (l : List String) :
    (l.map (fun x => "/".data ++ x.data)).flatten = slashTail l := by
  induction l with
  | nil => rfl
  | cons a rest ih =>
    simp only [List.map_cons, List.flatten_cons, ih, slashTail]
    rfl

theorem intercalate_data (a : String) (rest : List String) :
    ("/".intercalate (a :: rest)).data = a.data ++ slashTail rest := by
  rw [String.intercalate, intercalate_go_data, slashTail_eq]

theorem splitSlash_ne_nil (l : List Char) : splitSlash l ≠ [] := by
  cases l with
  | nil => simp [splitSlash]
  | cons c cs =>
    unfold splitSlash
    split
    · simp
    · split <;> simp

theorem splitSlash_plain (l : List Char) (h : '/' ∉ l) : splitSlash l = [l] := by
  induction l with
  | nil => rfl
  | cons c cs ih =>
    have hc : c ≠ '/' := fun hc => h (by rw [hc]; exact List.mem_cons_self _ _)
    have hcs : '/' ∉ cs := fun hm => h (List.mem_cons_of_mem _ hm)
    unfold splitSlash
    rw [ih hcs]
    simp [hc]

theorem splitSlash_append (l r : List Char) (h : '/' ∉ l) :
    splitSlash (l ++ '/' :: r) = l :: splitSlash r := by
  induction l with
  | nil =>
    rw [List.nil_append, splitSlash]
    rcases hr : splitSlash r with _ | ⟨seg, rest⟩
    · exact absurd hr (splitSlash_ne_nil r)
    · simp
  | cons c cs ih =>
    have hc : c ≠ '/' := fun hc => h (by rw [hc]; exact List.mem_cons_self _ _)
    have hcs : '/' ∉ cs := fun hm => h (List.mem_cons_of_mem _ hm)
    rw [List.cons_append, splitSlash, ih hcs]
    simp [hc]

theorem splitSlash_segments :
    ∀ (rest : List String) (a : String),
      '/' ∉ a.data → (∀ x, x ∈ rest → '/' ∉ x.data) →
      splitSlash (a.data ++ slashTail rest) = a.data :: rest.map String.data := by
  intro rest
  induction rest with
  | nil =>
    intro a ha _
    rw [slashTail, List.append_nil, splitSlash_plain _ ha]
    rfl
  | cons b rest ih =>
    intro a ha hrest
    rw [slashTail, splitSlash_append _ _ ha,
      ih b (hrest b (List.mem_cons_self _ _)) (fun x hx => hrest x (List.mem_cons_of_mem _ hx))]
    rfl

theorem map_mk_data (l : List String) : (l.map String.data).map String.mk = l := by
  induction l with
  | nil => rfl
  | cons a rest ih => simp [ih]

theorem cleanStep_plain (rooted : Bool) (out : List String) (comp : String)
    (h1 : comp ≠ "") (h2 : comp ≠ ".") (h3 : comp ≠ "..") :
    cleanStep rooted out comp = out ++ [comp] := by
  unfold cleanStep
  simp [h1, h2, h3]

theorem foldl_cleanStep_plain (rooted : Bool) :
    ∀ (segs out : List String),
      (∀ x, x ∈ segs → x ≠ "" ∧ x ≠ "." ∧ x ≠ "..") →
      segs.foldl (cleanStep rooted) out = out ++ segs := by
  intro segs
  induction segs with
  | nil => intro out _; simp
  | cons a rest ih =>
    intro out h
    obtain ⟨h1, h2, h3⟩ := h a (List.mem_cons_self _ _)
    rw [List.foldl_cons, cleanStep_plain rooted out a h1 h2 h3,
      ih _ (fun x hx => h x (List.mem_cons_of_mem _ hx))]
    simp

theorem pathJoin_plain (segs : List String)
    (h : ∀ x, x ∈ segs → x ≠ "" ∧ '/' ∉ x.data ∧ x ≠ "." ∧ x ≠ "..") :
    pathJoin segs = "/".intercalate segs := by
  have hfilter : segs.filter (fun e => decide (e ≠ "")) = segs := by
    rw [List.filter_eq_self]
    intro x hx
    simpa using (h x hx).1
  unfold pathJoin
  rw [hfilter]
  cases segs with
  | nil => rfl
  | cons a rest =>
    dsimp only
    obtain ⟨ha1, ha2, _, _⟩ := h a (List.mem_cons_self _ _)
    have hdata := intercalate_data a rest
    have hne : a.data ≠ [] := by
      intro hnil
      apply ha1
      exact String.ext hnil
    obtain ⟨c, cs, hc⟩ := List.exists_cons_of_ne_nil hne
    have hc1 : c ≠ '/' := by
      intro hslash
      apply ha2
      rw [hc, hslash]
      exact List.mem_cons_self _ _
    have hpath : "/".intercalate (a :: rest) ≠ "" := by
      intro hempty
      have := congrArg String.data hempty
      rw [hdata, hc] at this
      simp at this
    have hhead : ("/".intercalate (a :: rest)).data.head? ≠ some '/' := by
      rw [hdata, hc]
      simp [hc1]
    have hsplit : (splitSlash ("/".intercalate (a :: rest)).data).map String.mk = a :: rest := by
      rw [hdata, splitSlash_segments rest a ha2
        (fun x hx => (h x (List.mem_cons_of_mem _ hx)).2.1)]
      exact map_mk_data (a :: rest)
    have hfold : ∀ r, (a :: rest).foldl (cleanStep r) [] = a :: rest := by
      intro r
      rw [foldl_cleanStep_plain r (a :: rest) []
        (fun x hx => ⟨(h x hx).1, (h x hx).2.2.1, (h x hx).2.2.2⟩)]
      rfl
    unfold pathClean
    rw [if_neg hpath]
    simp only [hsplit, hfold, hhead]
    simp

theorem segments_eq (pool : String) (ns : Option StringPtr) (image : String) :
    PathJoin.segments [.str pool, .ptr ns, .str image] =
      [pool, ptrValue ns, image].filter (fun s => decide (s ≠ "")) := by
  cases ns with
  | none =>
    by_cases hp : pool = "" <;> by_cases hi : image = "" <;>
      simp [PathJoin.segments, ptrValue, hp, hi]
  | some q =>
    by_cases hp : pool = "" <;> by_cases hq : q.val = "" <;> by_cases hi : image = "" <;>
      simp [PathJoin.segments, ptrValue, hp, hq, hi]

/-- C15: for a pool name, a namespace pointer and an image name whose non-empty values
contain no slash and are neither `.` nor `..`, `PathJoin` returns the non-empty values
joined by single slashes in argument order, the nil pointer and the pointer to the empty
string being left out; so it returns `pool/img` for a nil namespace and for a pointer to
the empty string, and `pool/ns/img` for a pointer to `ns`. -/
theorem pathJoin_joins_plain_values (pool : String) (ns : Option StringPtr) (image : String)
    (hpool : PlainSegment pool) (hns : PlainSegment (ptrValue ns))
    (himage : PlainSegment image) :
    PathJoin [.str pool, .ptr ns, .str image] =
      "/".intercalate ([pool, ptrValue ns, image].filter (fun s => decide (s ≠ ""))) ∧
    PathJoin [.str "pool", .ptr none, .str "img"] = "pool/img" ∧
    PathJoin [.str "pool", .ptr (some ⟨1, ""⟩), .str "img"] = "pool/img" ∧
    PathJoin [.str "pool", .ptr (some ⟨1, "ns"⟩), .str "img"] = "pool/ns/img" := by
  refine ⟨?_, by decide, by decide, by decide⟩
  unfold PathJoin
  rw [segments_eq]
  apply pathJoin_plain
  intro x hx
  rw [List.mem_filter] at hx
  obtain ⟨hmem, hne⟩ := hx
  have hne2 : x ≠ "" := by simpa using hne
  simp only [List.mem_cons, List.mem_singleton, List.not_mem_nil, or_false] at hmem
  rcases hmem with rfl | rfl | rfl
  · exact ⟨hne2, hpool hne2⟩
  · exact ⟨hne2, hns hne2⟩
  · exact ⟨hne2, himage hne2⟩

/-- Witness of C15: pool `rbd`, a pointer to `ns` and image `vol1`. -/
theorem pathJoin_joins_plain_values_witness :
    PathJoin [.str "rbd", .ptr (some ⟨7, "ns"⟩), .str "vol1"] =
      "/".intercalate
        (["rbd", ptrValue (some ⟨7, "ns"⟩), "vol1"].filter (fun s => decide (s ≠ ""))) ∧
    PathJoin [.str "pool", .ptr none, .str "img"] = "pool/img" ∧
    PathJoin [.str "pool", .ptr (some ⟨1, ""⟩), .str "img"] = "pool/img" ∧
    PathJoin [.str "pool", .ptr (some ⟨1, "ns"⟩), .str "img"] = "pool/ns/img" :=
  pathJoin_joins_plain_values "rbd" (some ⟨7, "ns"⟩) "vol1"
    (fun _ => by decide) (fun _ => by decide) (fun _ => by decide)

/-! ## A task that is never found -/

theorem wait_never_found (fuel : Nat) (target : Task) (w : World) (h : w.NeverFound target) :
    WaitForTaskIsDone (fuel + 1) target w =
      some ((({} : Task), none), w.afterFetches (maxAttempts + 1)) := by
  have p1 := phase1_break target fuel w (h _ (le_refl _)).1 (h _ (le_refl _)).2.1
  have p2 := phase2_exhausted target maxAttempts (w.afterFetches 1)
    (fun k hk => (h k (by rw [afterFetches_fetched] at hk; omega)).1)
    (fun k hk => (h k (by rw [afterFetches_fetched] at hk; omega)).2.2)
  unfold WaitForTaskIsDone
  rw [p1]
  dsimp only
  rw [p2, afterFetches_add, Nat.add_comm 1 maxAttempts]

theorem neverFound_send (w : World) (target : Task) (req : Request) (h : w.NeverFound target) :
    (w.send req).2.NeverFound target := by
  intro k hk
  rw [send_errAt, send_tasksAt]
  exact h k hk

theorem neverFound_afterLostAttempts (w : World) (target : Task) (req : Request) (k : Nat)
    (h : w.NeverFound target) : (w.afterLostAttempts req k).NeverFound target := by
  intro i hi
  have hi2 : w.fetched ≤ i := by
    have : (w.afterLostAttempts req k).fetched = w.fetched + (maxAttempts + 1) * k := rfl
    omega
  have := h i hi2
  have e1 : (w.afterLostAttempts req k).getTaskAt i = w.getTaskAt i := by
    unfold World.getTaskAt GetTask World.fetch World.afterLostAttempts
    dsimp only
    split <;> rfl
  unfold World.errAt World.tasksAt at this ⊢
  rw [e1]
  exact this

theorem afterLostAttempts_step (w : World) (req : Request) (k : Nat) :
    ((w.afterLostAttempts req k).send req).2.afterFetches (maxAttempts + 1) =
      w.afterLostAttempts req (k + 1) := by
  simp only [World.afterLostAttempts, World.send, World.afterFetches, List.replicate_succ',
    List.append_assoc, World.mk.injEq, true_and]
  rw [Nat.mul_succ, Nat.add_assoc]

theorem lost_script (fuel : Nat) (req : Request) (tracked : Response → Prop) (target : Task)
    (N : Nat) (w : World) (ht : ∀ k, tracked (w.mutating k)) (h : w.NeverFound target) :
    AttemptScript (fuel + 1) req tracked target N (w.afterLostAttempts req) (fun _ => {}) := by
  intro k _
  refine ⟨ht _, ?_⟩
  rw [wait_never_found fuel target _
    (neverFound_send _ target req (neverFound_afterLostAttempts w target req k h)),
    afterLostAttempts_step]

theorem afterLostAttempts_zero (w : World) (req : Request) : w.afterLostAttempts req 0 = w := by
  simp [World.afterLostAttempts]

theorem create_wait_none (c : Client) (fuel depth : Nat) (rbdCreate : RBDCreate)
    (counter : Nat) (w : World)
    (hc : counter ≤ c.MaxIterations)
    (ht : CreateBlockImage.tracked (w.mutating w.sent.length))
    (hw : WaitForTaskIsDone fuel (CreateBlockImage.lookForTask rbdCreate)
      (w.send (.post rbdCreate)).2 = none) :
    CreateBlockImage c fuel (depth + 1) rbdCreate counter w = none := by
  obtain ⟨he, hs, hst⟩ := ht
  rw [CreateBlockImage, if_neg (Nat.not_lt.mpr hc)]
  simp only [World.send] at hw ⊢
  simp only [he, hs, hst, hw]
  simp

theorem silentWorld_neverFound (target : Task) (s : List Request) (f : Nat) :
    (silentWorldAt s f).NeverFound target :=
  fun _ _ => ⟨rfl, rfl, rfl⟩

theorem silentWorld_create_never_exceeded (fuel : Nat) :
    ∀ (depth counter : Nat) (s : List Request) (f : Nat) (w1 : World),
      counter < uintSize →
      CreateBlockImage ⟨uintSize - 1⟩ fuel depth vol1Create counter (silentWorldAt s f) ≠
        some ((0, some .ErrMaxIterationsExceeded), w1) := by
  intro depth
  induction depth with
  | zero =>
    intro counter s f w1 _ h
    simp [CreateBlockImage] at h
  | succ depth ih =>
    intro counter s f w1 hcount
    have hc : counter ≤ (⟨uintSize - 1⟩ : Client).MaxIterations := by
      show counter ≤ uintSize - 1
      omega
    have ht : CreateBlockImage.tracked
        ((silentWorldAt s f).mutating (silentWorldAt s f).sent.length) :=
      ⟨rfl, rfl, Or.inr rfl⟩
    cases fuel with
    | zero =>
      rw [create_wait_none ⟨uintSize - 1⟩ 0 depth vol1Create counter (silentWorldAt s f)
        hc ht rfl]
      simp
    | succ fuel =>
      rw [create_wait_retry ⟨uintSize - 1⟩ (fuel + 1) depth vol1Create counter
        (silentWorldAt s f)
        (silentWorldAt (s ++ [Request.post vol1Create]) (f + (maxAttempts + 1))) {} hc ht
        (wait_never_found fuel _ _
          (silentWorld_neverFound _ (s ++ [Request.post vol1Create]) f)) rfl]
      exact ih _ _ _ w1 (Nat.mod_lt _ uintSize_pos)

/-- C16 as the code behaves: the zero-value `Task` has `Success = false`, so an
orchestrator whose wait returns it with a nil error calls itself with the counter
incremented, as after a failed finished task; and with a ceiling `MaxIterations` below
the largest `uint`, an orchestrator called with counter 0 in a world where every request
gets a tracked answer and the task is never found returns status 0 with
`ErrMaxIterationsExceeded` after `MaxIterations + 1` requests, each followed by
`maxAttempts + 1` fetches. -/
theorem lost_task_is_retried (c : Client) (fuel : Nat) (hM : c.MaxIterations + 1 < uintSize)
    (rbdCreate : RBDCreate) (poolName : String) (nameSpace : Option StringPtr)
    (imageName : String) (rbdUpdate : RBDUpdate)
    (hpool : poolName ≠ "") (himage : imageName ≠ "") (hnew : rbdUpdate.Name ≠ "")
    (wC wU wD : World)
    (hCt : ∀ k, CreateBlockImage.tracked (wC.mutating k))
    (hCn : wC.NeverFound (CreateBlockImage.lookForTask rbdCreate))
    (hUt : ∀ k, UpdateBlockImage.tracked (wU.mutating k))
    (hUn : wU.NeverFound (UpdateBlockImage.lookForTask (imageSpecOf poolName nameSpace imageName)))
    (hDt : ∀ k, DeleteBlockImage.tracked (wD.mutating k))
    (hDn : wD.NeverFound (DeleteBlockImage.lookForTask (imageSpecOf poolName nameSpace imageName)))
    (depth : Nat) (hd : c.MaxIterations + 1 < depth) :
    ({} : Task).Success = false ∧
    (∀ d counter w w2, counter ≤ c.MaxIterations →
      CreateBlockImage.tracked (w.mutating w.sent.length) →
      WaitForTaskIsDone (fuel + 1) (CreateBlockImage.lookForTask rbdCreate)
        (w.send (.post rbdCreate)).2 = some ((({} : Task), none), w2) →
      CreateBlockImage c (fuel + 1) (d + 1) rbdCreate counter w =
        CreateBlockImage c (fuel + 1) d rbdCreate ((counter + 1) % uintSize) w2) ∧
    (∀ d counter w w2, counter ≤ c.MaxIterations →
      UpdateBlockImage.tracked (w.mutating w.sent.length) →
      WaitForTaskIsDone (fuel + 1)
        (UpdateBlockImage.lookForTask (imageSpecOf poolName nameSpace imageName))
        (w.send (.put (imageSpecOf poolName nameSpace imageName) rbdUpdate)).2 =
        some ((({} : Task), none), w2) →
      UpdateBlockImage c (fuel + 1) (d + 1) poolName nameSpace imageName rbdUpdate counter w =
        UpdateBlockImage c (fuel + 1) d poolName nameSpace imageName rbdUpdate
          ((counter + 1) % uintSize) w2) ∧
    (∀ d counter w w2, counter ≤ c.MaxIterations →
      DeleteBlockImage.tracked (w.mutating w.sent.length) →
      WaitForTaskIsDone (fuel + 1)
        (DeleteBlockImage.lookForTask (imageSpecOf poolName nameSpace imageName))
        (w.send (.delete (imageSpecOf poolName nameSpace imageName))).2 =
        some ((({} : Task), none), w2) →
      DeleteBlockImage c (fuel + 1) (d + 1) poolName nameSpace imageName counter w =
        DeleteBlockImage c (fuel + 1) d poolName nameSpace imageName
          ((counter + 1) % uintSize) w2) ∧
    CreateBlockImage c (fuel + 1) depth rbdCreate 0 wC =
      some ((0, some .ErrMaxIterationsExceeded),
        wC.afterLostAttempts (.post rbdCreate) (c.MaxIterations + 1)) ∧
    UpdateBlockImage c (fuel + 1) depth poolName nameSpace imageName rbdUpdate 0 wU =
      some ((0, some .ErrMaxIterationsExceeded),
        wU.afterLostAttempts (.put (imageSpecOf poolName nameSpace imageName) rbdUpdate)
          (c.MaxIterations + 1)) ∧
    DeleteBlockImage c (fuel + 1) depth poolName nameSpace imageName 0 wD =
      some ((0, some .ErrMaxIterationsExceeded),
        wD.afterLostAttempts (.delete (imageSpecOf poolName nameSpace imageName))
          (c.MaxIterations + 1)) := by
  refine ⟨rfl, ?_, ?_, ?_, ?_, ?_, ?_⟩
  · intro d counter w w2 hc ht hw
    exact create_wait_retry c (fuel + 1) d rbdCreate counter w w2 {} hc ht hw rfl
  · intro d counter w w2 hc ht hw
    exact update_wait_retry c (fuel + 1) d poolName nameSpace imageName rbdUpdate counter w w2 {}
      hpool himage hnew hc ht hw rfl
  · intro d counter w w2 hc ht hw
    exact delete_wait_retry c (fuel + 1) d poolName nameSpace imageName counter w w2 {}
      hpool himage hc ht hw rfl
  · have h := create_budget c (fuel + 1) rbdCreate (wC.afterLostAttempts (.post rbdCreate))
      (fun _ => {}) hM (lost_script fuel _ _ _ _ wC hCt hCn) (fun _ _ => rfl) depth hd
    rw [afterLostAttempts_zero] at h
    exact h
  · have h := update_budget c (fuel + 1) poolName nameSpace imageName rbdUpdate
      (wU.afterLostAttempts (.put (imageSpecOf poolName nameSpace imageName) rbdUpdate))
      (fun _ => {}) hpool himage hnew hM (lost_script fuel _ _ _ _ wU hUt hUn)
      (fun _ _ => rfl) depth hd
    rw [afterLostAttempts_zero] at h
    exact h
  · have h := delete_budget c (fuel + 1) poolName nameSpace imageName
      (wD.afterLostAttempts (.delete (imageSpecOf poolName nameSpace imageName)))
      (fun _ => {}) hpool himage hM (lost_script fuel _ _ _ _ wD hDt hDn)
      (fun _ _ => rfl) depth hd
    rw [afterLostAttempts_zero] at h
    exact h

/-- Witness of C16 as the code behaves, with `MaxIterations = 3` on `silentWorld`: four
requests and 2404 fetches, then `ErrMaxIterationsExceeded`. -/
theorem lost_task_is_retried_witness :
    ({} : Task).Success = false ∧
    CreateBlockImage ⟨3⟩ (0 + 1) 5 vol1Create 0 silentWorld =
      some ((0, some .ErrMaxIterationsExceeded),
        silentWorld.afterLostAttempts (.post vol1Create) (3 + 1)) ∧
    UpdateBlockImage ⟨3⟩ (0 + 1) 5 "rbd" none "vol1" vol1Update 0 silentWorld =
      some ((0, some .ErrMaxIterationsExceeded),
        silentWorld.afterLostAttempts (.put (imageSpecOf "rbd" none "vol1") vol1Update)
          (3 + 1)) ∧
    DeleteBlockImage ⟨3⟩ (0 + 1) 5 "rbd" none "vol1" 0 silentWorld =
      some ((0, some .ErrMaxIterationsExceeded),
        silentWorld.afterLostAttempts (.delete (imageSpecOf "rbd" none "vol1")) (3 + 1)) ∧
    (silentWorld.afterLostAttempts (.post vol1Create) (3 + 1)).sent.length = 4 ∧
    (silentWorld.afterLostAttempts (.post vol1Create) (3 + 1)).fetched = 2404 :=
  have h := lost_task_is_retried ⟨3⟩ 0 (by decide) vol1Create "rbd" none "vol1" vol1Update
    (by decide) (by decide) (by decide) silentWorld silentWorld silentWorld
    (fun _ => ⟨rfl, rfl, Or.inr rfl⟩) (fun _ _ => ⟨rfl, rfl, rfl⟩)
    (fun _ => ⟨rfl, Or.inl rfl⟩) (fun _ _ => ⟨rfl, rfl, rfl⟩)
    (fun _ => ⟨rfl, Or.inl rfl⟩) (fun _ _ => ⟨rfl, rfl, rfl⟩)
    5 (by decide)
  ⟨h.1, h.2.2.2.2.1, h.2.2.2.2.2.1, h.2.2.2.2.2.2, by decide, by decide⟩

/-- C16 as stated fails for the ceiling `MaxIterations = 2 ^ 64 - 1`, the largest `uint`:
on `silentWorld`, where every request is answered 202 and the task directory is always
empty, every wait ends with the zero-value `Task` and a nil error, and no run of
`CreateBlockImage` started with counter 0 ever returns `ErrMaxIterationsExceeded`. -/
theorem lost_task_never_ends_at_max_uint :
    (∀ k, CreateBlockImage.tracked (silentWorld.mutating k)) ∧
    (∀ fuel s f, WaitForTaskIsDone (fuel + 1) (CreateBlockImage.lookForTask vol1Create)
        (silentWorldAt s f) =
      some ((({} : Task), none), (silentWorldAt s f).afterFetches (maxAttempts + 1))) ∧
    ¬ ∃ depth fuel w1,
      CreateBlockImage ⟨uintSize - 1⟩ fuel depth vol1Create 0 silentWorld =
        some ((0, some .ErrMaxIterationsExceeded), w1) := by
  refine ⟨fun _ => ⟨rfl, rfl, Or.inr rfl⟩,
    fun fuel s f => wait_never_found fuel _ _ (silentWorld_neverFound _ s f), ?_⟩
  rintro ⟨depth, fuel, w1, h⟩
  exact silentWorld_create_never_exceeded fuel depth 0 [] 0 w1 uintSize_pos h

/-! ## The resource functions -/

theorem resource_namespace_store_panics (poolName imgName nameSpace : String) (size : Int)
    (h : nameSpace ≠ "") :
    resourceRBDCreate.clientCall (resourceData poolName imgName nameSpace size) =
      .error .nilPointerDereference ∧
    resourceRBDelete.clientCall (resourceData poolName imgName nameSpace size) =
      .error .nilPointerDereference ∧
    resourceRBDUpdate.clientCall (resourceData poolName imgName nameSpace size) =
      .error .nilPointerDereference := by
  refine ⟨?_, ?_, ?_⟩
  · simp [resourceRBDCreate.clientCall, resourceData, assertString, storeString, h, bind,
      Except.bind]
  · simp [resourceRBDelete.clientCall, resourceData, assertString, storeString, h, bind,
      Except.bind]
  · simp [resourceRBDUpdate.clientCall, resourceData, assertString, storeString, h, bind,
      Except.bind]

/-- C17, the code at the failing input: for the resource description `nsResource`, whose
`name_space` is `ns`, the functions `resourceRBDCreate`, `resourceRBDelete` and
`resourceRBDUpdate` stop with a nil pointer dereference at `*nameSpace = ...` and make no
call of the client; without name space the creation and the deletion reach their call
with a nil namespace pointer. -/
theorem resource_functions_panic_on_namespace :
    resourceRBDCreate.clientCall nsResource = .error .nilPointerDereference ∧
    resourceRBDelete.clientCall nsResource = .error .nilPointerDereference ∧
    resourceRBDUpdate.clientCall nsResource = .error .nilPointerDereference ∧
    resourceRBDCreate.clientCall plainResource =
      .ok (.CreateBlockImage { PoolName := "rbd", Name := "vol1", Size := 1073741824 } 0) ∧
    resourceRBDelete.clientCall plainResource = .ok (.DeleteBlockImage "rbd" none "vol1" 0) :=
  ⟨rfl, rfl, rfl, rfl, rfl⟩

end Ceph
